import Mathlib

/-!
Shallow embedding of the anomaly-detection core of the crypto-monitor
repository, taken from
  crypto-monitor/docker-build-context/monitor-anomaly/src/lib.rs
  crypto-monitor/docker-build-context/monitor-anomaly/src/detector.rs
  crypto-monitor/docker-build-context/monitor-anomaly/src/analyzer.rs
  crypto-monitor/docker-build-context/monitor-core/src/lib.rs
  barter-data/examples/monitor_demo_improved.rs

Conventions used throughout:
* Rust f64 values are modelled as exact real numbers where the claims are
  about exact arithmetic, and as an extended scalar type with nan and
  infinities where control flow depends on non-finite values.
* Methods taking a mutable receiver become state-passing functions that
  return the updated state together with the method's return value.
* Presentational fields (the random uuid id, description strings, and
  wall-clock timestamps drawn inside the method) are omitted; no claim
  mentions them.  Every other field is kept with its source name.
-/

namespace CryptoMonitor

/-- Rust enum monitor_core::AnomalyType, monitor-core/src/lib.rs lines
79-85.  The enum has exactly these five variants; in particular it has no
FlashCrash and no PumpDump variant. -/
inductive AnomalyType where
  | VolumeSpike
  | PriceSpike
  | DepthImbalance
  | LargeOrder
  | UnusualActivity
deriving DecidableEq, Repr

/-- Rust enum AnomalySeverity, monitor-anomaly/src/lib.rs lines 22-28. -/
inductive AnomalySeverity where
  | Low
  | Medium
  | High
  | Critical
deriving DecidableEq, Repr

/-- Rust struct AnomalyMetrics, monitor-anomaly/src/lib.rs lines 30-39,
parametrised by the scalar type standing for f64. -/
structure AnomalyMetrics (α : Type) where
  current_value : α
  expected_value : α
  deviation : α
  z_score : Option α
  percentage_change : Option α
  historical_avg : Option α
  historical_std : Option α
deriving DecidableEq, Repr

/-- Rust struct AnomalyDetection, monitor-anomaly/src/lib.rs lines 10-20,
without the presentational id and description fields. -/
structure AnomalyDetection (α : Type) where
  timestamp : ℚ
  symbol : String
  exchange : String
  anomaly_type : AnomalyType
  severity : AnomalySeverity
  metrics : AnomalyMetrics α
deriving DecidableEq, Repr

/-- Rust struct TimeSeriesData, monitor-anomaly/src/lib.rs lines 41-45. -/
structure TimeSeriesData (α : Type) where
  timestamp : ℚ
  value : α
deriving DecidableEq, Repr

/-- Rust struct TimeSeriesWindow, monitor-anomaly/src/lib.rs lines 47-53.
The VecDeque is a list whose head is the front (oldest) element. -/
structure TimeSeriesWindow (α : Type) where
  data : List (TimeSeriesData α)
  max_size : ℕ
  sum : α
  sum_squared : α
deriving DecidableEq, Repr

/-- TimeSeriesWindow::new, lib.rs lines 56-63. -/
def TimeSeriesWindow.new (α : Type) [Zero α] (max_size : ℕ) :
    TimeSeriesWindow α :=
  { data := [], max_size := max_size, sum := 0, sum_squared := 0 }

/-- TimeSeriesWindow::push, lib.rs lines 65-76: if the deque is full, pop
the front sample and subtract its value and squared value from the running
sums; then add the new value and its square and append the sample.  There
is no finiteness check of any kind. -/
def TimeSeriesWindow.push {α : Type} [Add α] [Sub α] [Mul α]
    (w : TimeSeriesWindow α) (point : TimeSeriesData α) :
    TimeSeriesWindow α :=
  let w1 :=
    if w.max_size ≤ w.data.length then
      match w.data with
      | [] => w
      | old :: rest =>
          { w with
              data := rest
              sum := w.sum - old.value
              sum_squared := w.sum_squared - old.value * old.value }
    else w
  { w1 with
      data := w1.data ++ [point]
      sum := w1.sum + point.value
      sum_squared := w1.sum_squared + point.value * point.value }

/-- Folding push over a list of samples, oldest first. -/
def TimeSeriesWindow.pushAll {α : Type} [Add α] [Sub α] [Mul α]
    (w : TimeSeriesWindow α) (ps : List (TimeSeriesData α)) :
    TimeSeriesWindow α :=
  ps.foldl TimeSeriesWindow.push w

/-- TimeSeriesWindow::mean, lib.rs lines 78-84. -/
noncomputable def TimeSeriesWindow.mean (w : TimeSeriesWindow ℝ) : ℝ :=
  match w.data with
  | [] => 0
  | _ => w.sum / (w.data.length : ℝ)

/-- TimeSeriesWindow::std_dev, lib.rs lines 86-94: zero below two samples,
else the square root of the variance clamped at zero. -/
noncomputable def TimeSeriesWindow.std_dev (w : TimeSeriesWindow ℝ) : ℝ :=
  if w.data.length < 2 then 0
  else
    Real.sqrt
      (max (w.sum_squared / (w.data.length : ℝ) - w.mean * w.mean) 0)

/-- TimeSeriesWindow::z_score, lib.rs lines 96-103. -/
noncomputable def TimeSeriesWindow.zScore (w : TimeSeriesWindow ℝ)
    (value : ℝ) : ℝ :=
  if w.std_dev = 0 then 0 else (value - w.mean) / w.std_dev

/-- TimeSeriesWindow::len, lib.rs lines 105-107. -/
def TimeSeriesWindow.len {α : Type} (w : TimeSeriesWindow α) : ℕ :=
  w.data.length

/-- Sum of the values of a list of samples. -/
def valueSum (l : List (TimeSeriesData ℝ)) : ℝ :=
  (l.map fun d => d.value).sum

/-- Sum of the squared values of a list of samples. -/
def valueSqSum (l : List (TimeSeriesData ℝ)) : ℝ :=
  (l.map fun d => d.value * d.value).sum

theorem TimeSeriesWindow.push_not_full {α : Type} [Add α] [Sub α] [Mul α]
    (w : TimeSeriesWindow α) (p : TimeSeriesData α)
    (hcond : ¬ w.max_size ≤ w.data.length) :
    w.push p =
      { data := w.data ++ [p], max_size := w.max_size,
        sum := w.sum + p.value,
        sum_squared := w.sum_squared + p.value * p.value } := by
  simp [TimeSeriesWindow.push, hcond]

theorem TimeSeriesWindow.push_full {α : Type} [Add α] [Sub α] [Mul α]
    (w : TimeSeriesWindow α) (old : TimeSeriesData α)
    (rest : List (TimeSeriesData α)) (p : TimeSeriesData α)
    (hdata : w.data = old :: rest)
    (hcond : w.max_size ≤ w.data.length) :
    w.push p =
      { data := rest ++ [p], max_size := w.max_size,
        sum := w.sum - old.value + p.value,
        sum_squared :=
          w.sum_squared - old.value * old.value + p.value * p.value } := by
  have hcond2 : w.max_size ≤ rest.length + 1 := by
    have h3 : w.max_size ≤ (old :: rest).length := hdata ▸ hcond
    simpa using h3
  simp [TimeSeriesWindow.push, hdata, hcond2]

theorem pushAll_invariant (N : ℕ) (hN : 1 ≤ N)
    (ps : List (TimeSeriesData ℝ)) :
    ((TimeSeriesWindow.new ℝ N).pushAll ps).max_size = N ∧
    ((TimeSeriesWindow.new ℝ N).pushAll ps).data
      = ps.drop (ps.length - N) ∧
    ((TimeSeriesWindow.new ℝ N).pushAll ps).sum
      = valueSum (ps.drop (ps.length - N)) ∧
    ((TimeSeriesWindow.new ℝ N).pushAll ps).sum_squared
      = valueSqSum (ps.drop (ps.length - N)) := by
  induction ps using List.reverseRecOn with
  | nil =>
      simp [TimeSeriesWindow.pushAll, TimeSeriesWindow.new, valueSum,
        valueSqSum]
  | append_singleton ps p ih =>
      obtain ⟨hsize, hdata, hsum, hsq⟩ := ih
      have hstep : (TimeSeriesWindow.new ℝ N).pushAll (ps ++ [p])
          = ((TimeSeriesWindow.new ℝ N).pushAll ps).push p := by
        simp [TimeSeriesWindow.pushAll, List.foldl_append]
      set w := (TimeSeriesWindow.new ℝ N).pushAll ps with hw
      rcases lt_or_le ps.length N with hL | hL
      · -- the window is not yet full: nothing is evicted
        have h0 : ps.length - N = 0 := by omega
        have h1 : (ps ++ [p]).length - N = 0 := by
          simp only [List.length_append, List.length_cons,
            List.length_nil]
          omega
        have hcond : ¬ w.max_size ≤ w.data.length := by
          rw [hsize, hdata, h0, List.drop_zero]
          omega
        rw [h0, List.drop_zero] at hdata hsum hsq
        rw [hstep, TimeSeriesWindow.push_not_full w p hcond, h1,
          List.drop_zero]
        refine ⟨hsize, ?_, ?_, ?_⟩
        · rw [hdata]
        · simp [hsum, valueSum]
        · simp [hsq, valueSqSum]
      · -- the window is full: the oldest sample is evicted
        have hlen : (ps.drop (ps.length - N)).length = N := by
          rw [List.length_drop]
          omega
        have hne : ps.drop (ps.length - N) ≠ [] := by
          intro h
          rw [h] at hlen
          simp at hlen
          omega
        obtain ⟨old, rest, hcons⟩ := List.exists_cons_of_ne_nil hne
        have hcond : w.max_size ≤ w.data.length := by
          rw [hsize, hdata, hlen]
        have htail : ps.drop (ps.length - N + 1) = rest := by
          have h2 := List.tail_drop ps (ps.length - N)
          rw [hcons] at h2
          simpa using h2.symm
        have hdropstep :
            (ps ++ [p]).drop ((ps ++ [p]).length - N) = rest ++ [p] := by
          have harith : (ps ++ [p]).length - N = ps.length - N + 1 := by
            simp only [List.length_append, List.length_cons,
              List.length_nil]
            omega
          rw [harith,
            @List.drop_append_of_le_length _ ps [p] _ (by omega), htail]
        rw [hstep,
          TimeSeriesWindow.push_full w old rest p (hdata.trans hcons) hcond,
          hdropstep]
        have hvs : valueSum (ps.drop (ps.length - N))
            = old.value + valueSum rest := by
          rw [hcons]
          simp [valueSum]
        have hvq : valueSqSum (ps.drop (ps.length - N))
            = old.value * old.value + valueSqSum rest := by
          rw [hcons]
          simp [valueSqSum]
        refine ⟨hsize, rfl, ?_, ?_⟩
        · rw [hsum, hvs]
          simp [valueSum]
        · rw [hsq, hvq]
          simp [valueSqSum]

/-- C1: for capacity N ≥ 1 and any push sequence, the deque holds exactly
the most recent min(k, N) samples in insertion order (so the k-th push
with k ≥ N has evicted the sample from push k−N), the running sum equals
the sum of the values currently in the deque, the running sum of squares
equals the sum of their squares, and std_dev is nonnegative because the
variance is clamped at zero before the square root. -/
theorem c1_window_invariants (N : ℕ) (hN : 1 ≤ N)
    (ps : List (TimeSeriesData ℝ)) :
    ((TimeSeriesWindow.new ℝ N).pushAll ps).data
      = ps.drop (ps.length - N) ∧
    ((TimeSeriesWindow.new ℝ N).pushAll ps).data.length
      = min ps.length N ∧
    ((TimeSeriesWindow.new ℝ N).pushAll ps).sum
      = valueSum (((TimeSeriesWindow.new ℝ N).pushAll ps).data) ∧
    ((TimeSeriesWindow.new ℝ N).pushAll ps).sum_squared
      = valueSqSum (((TimeSeriesWindow.new ℝ N).pushAll ps).data) ∧
    0 ≤ ((TimeSeriesWindow.new ℝ N).pushAll ps).std_dev := by
  obtain ⟨hsize, hdata, hsum, hsq⟩ := pushAll_invariant N hN ps
  refine ⟨hdata, ?_, ?_, ?_, ?_⟩
  · rw [hdata, List.length_drop]
    omega
  · rw [hsum, hdata]
  · rw [hsq, hdata]
  · unfold TimeSeriesWindow.std_dev
    split
    · exact le_refl 0
    · exact Real.sqrt_nonneg _

/-- Closed witness for c1_window_invariants at N = 2 and three pushes:
the first sample has been evicted, the deque holds the last two, and the
sums match. -/
theorem c1_window_invariants_witness :
    ((TimeSeriesWindow.new ℝ 2).pushAll
        [⟨0, 1⟩, ⟨1, 2⟩, ⟨2, 3⟩]).data
      = [⟨1, 2⟩, ⟨2, 3⟩] ∧
    0 ≤ ((TimeSeriesWindow.new ℝ 2).pushAll
        [⟨0, 1⟩, ⟨1, 2⟩, ⟨2, 3⟩]).std_dev := by
  obtain ⟨hdata, _, _, _, hsd⟩ :=
    c1_window_invariants 2 (by norm_num) [⟨0, 1⟩, ⟨1, 2⟩, ⟨2, 3⟩]
  refine ⟨?_, hsd⟩
  simpa using hdata

/-- Rust struct VolumeAnomalyConfig, monitor-anomaly/src/lib.rs lines
119-125. -/
structure VolumeAnomalyConfig where
  z_score_threshold : ℝ
  min_percentage_change : ℝ
  window_size : ℕ
  min_samples : ℕ

/-- Default for VolumeAnomalyConfig, lib.rs lines 127-136. -/
def VolumeAnomalyConfig.default : VolumeAnomalyConfig :=
  { z_score_threshold := 3, min_percentage_change := 200,
    window_size := 60, min_samples := 30 }

/-- Rust struct PriceAnomalyConfig, monitor-anomaly/src/lib.rs lines
138-144. -/
structure PriceAnomalyConfig where
  percentage_threshold : ℝ
  z_score_threshold : ℝ
  window_size : ℕ
  min_samples : ℕ

/-- Default for PriceAnomalyConfig, lib.rs lines 146-155. -/
def PriceAnomalyConfig.default : PriceAnomalyConfig :=
  { percentage_threshold := 5, z_score_threshold := 3,
    window_size := 60, min_samples := 30 }

/-- Rust struct VolumeAnomalyDetector, detector.rs lines 12-17. -/
structure VolumeAnomalyDetector where
  config : VolumeAnomalyConfig
  symbol : String
  exchange : String
  window : TimeSeriesWindow ℝ

/-- VolumeAnomalyDetector::new, detector.rs lines 19-28. -/
def VolumeAnomalyDetector.new (config : VolumeAnomalyConfig)
    (symbol exchange : String) : VolumeAnomalyDetector :=
  { config := config, symbol := symbol, exchange := exchange,
    window := TimeSeriesWindow.new ℝ config.window_size }

/-- VolumeAnomalyDetector::detect, detector.rs lines 31-92.  The sample is
pushed first; if the window still holds fewer than min_samples samples the
method returns None; otherwise it fires iff the absolute z-score reaches
z_score_threshold and the absolute percentage change reaches
min_percentage_change, where the percentage change is zero unless the
window mean is strictly positive. -/
noncomputable def VolumeAnomalyDetector.detect (d : VolumeAnomalyDetector)
    (data : TimeSeriesData ℝ) :
    VolumeAnomalyDetector × Option (AnomalyDetection ℝ) :=
  let d1 : VolumeAnomalyDetector := { d with window := d.window.push data }
  if d1.window.len < d1.config.min_samples then (d1, none)
  else
    let mean := d1.window.mean
    let std_dev := d1.window.std_dev
    let z_score := d1.window.zScore data.value
    let percentage_change :=
      if 0 < mean then (data.value - mean) / mean * 100 else 0
    if d1.config.z_score_threshold ≤ |z_score| ∧
        d1.config.min_percentage_change ≤ |percentage_change| then
      let severity :=
        if 5 ≤ |z_score| then AnomalySeverity.Critical
        else if 4 ≤ |z_score| then AnomalySeverity.High
        else if 3 ≤ |z_score| then AnomalySeverity.Medium
        else AnomalySeverity.Low
      (d1, some
        { timestamp := data.timestamp
          symbol := d1.symbol
          exchange := d1.exchange
          anomaly_type := AnomalyType.VolumeSpike
          severity := severity
          metrics :=
            { current_value := data.value
              expected_value := mean
              deviation := data.value - mean
              z_score := some z_score
              percentage_change := some percentage_change
              historical_avg := some mean
              historical_std := some std_dev } })
    else (d1, none)

/-- Rust struct PriceAnomalyDetector, detector.rs lines 99-105. -/
structure PriceAnomalyDetector where
  config : PriceAnomalyConfig
  symbol : String
  exchange : String
  window : TimeSeriesWindow ℝ
  last_price : Option ℝ

/-- PriceAnomalyDetector::new, detector.rs lines 107-117. -/
def PriceAnomalyDetector.new (config : PriceAnomalyConfig)
    (symbol exchange : String) : PriceAnomalyDetector :=
  { config := config, symbol := symbol, exchange := exchange,
    window := TimeSeriesWindow.new ℝ config.window_size,
    last_price := none }

/-- PriceAnomalyDetector::detect, detector.rs lines 119-189.  The sample
is pushed first; below min_samples the method records last_price and
returns None; otherwise it fires iff the absolute tick-to-tick percentage
change reaches percentage_threshold or the absolute z-score reaches
z_score_threshold. -/
noncomputable def PriceAnomalyDetector.detect (d : PriceAnomalyDetector)
    (data : TimeSeriesData ℝ) :
    PriceAnomalyDetector × Option (AnomalyDetection ℝ) :=
  let current_price := data.value
  let d1 : PriceAnomalyDetector := { d with window := d.window.push data }
  if d1.window.len < d1.config.min_samples then
    ({ d1 with last_price := some current_price }, none)
  else
    let mean := d1.window.mean
    let std_dev := d1.window.std_dev
    let z_score := d1.window.zScore current_price
    let percentage_change :=
      match d1.last_price with
      | some last =>
          if 0 < last then (current_price - last) / last * 100 else 0
      | none => 0
    let d2 : PriceAnomalyDetector :=
      { d1 with last_price := some current_price }
    if d2.config.percentage_threshold ≤ |percentage_change| ∨
        d2.config.z_score_threshold ≤ |z_score| then
      let severity :=
        if 10 ≤ |percentage_change| ∨ 5 ≤ |z_score| then
          AnomalySeverity.Critical
        else if 7 ≤ |percentage_change| ∨ 4 ≤ |z_score| then
          AnomalySeverity.High
        else if 5 ≤ |percentage_change| ∨ 3 ≤ |z_score| then
          AnomalySeverity.Medium
        else AnomalySeverity.Low
      (d2, some
        { timestamp := data.timestamp
          symbol := d2.symbol
          exchange := d2.exchange
          anomaly_type := AnomalyType.PriceSpike
          severity := severity
          metrics :=
            { current_value := current_price
              expected_value := mean
              deviation := current_price - mean
              z_score := some z_score
              percentage_change := some percentage_change
              historical_avg := some mean
              historical_std := some std_dev } })
    else (d2, none)

/-- C2: both detectors push the new sample first and return None whenever
the window length after the push is below min_samples. -/
theorem c2_detectors_none_below_min_samples
    (dv : VolumeAnomalyDetector) (dp : PriceAnomalyDetector)
    (data : TimeSeriesData ℝ)
    (hv : (dv.window.push data).data.length < dv.config.min_samples)
    (hp : (dp.window.push data).data.length < dp.config.min_samples) :
    (dv.detect data).2 = none ∧ (dp.detect data).2 = none := by
  constructor
  · unfold VolumeAnomalyDetector.detect
    simp only [TimeSeriesWindow.len]
    rw [if_pos hv]
  · unfold PriceAnomalyDetector.detect
    simp only [TimeSeriesWindow.len]
    rw [if_pos hp]

/-- Closed witness for c2: fresh default detectors hold one sample after
the first push, below the default min_samples of 30, so both return
None. -/
theorem c2_detectors_none_below_min_samples_witness :
    ((VolumeAnomalyDetector.new VolumeAnomalyConfig.default "s" "e").detect
        ⟨0, 1⟩).2 = none ∧
    ((PriceAnomalyDetector.new PriceAnomalyConfig.default "s" "e").detect
        ⟨0, 1⟩).2 = none := by
  refine c2_detectors_none_below_min_samples _ _ _ ?_ ?_
  · simp [VolumeAnomalyDetector.new, VolumeAnomalyConfig.default,
      TimeSeriesWindow.new, TimeSeriesWindow.push]
  · simp [PriceAnomalyDetector.new, PriceAnomalyConfig.default,
      TimeSeriesWindow.new, TimeSeriesWindow.push]

/-- Percentage change as VolumeAnomalyDetector::detect computes it
(detector.rs lines 42-46): the formula applies only when the mean is
strictly positive, otherwise the value is zero. -/
noncomputable def volumePctChange (w : TimeSeriesWindow ℝ) (v : ℝ) : ℝ :=
  if 0 < w.mean then (v - w.mean) / w.mean * 100 else 0

/-- Severity ladder of VolumeAnomalyDetector::detect, detector.rs lines
51-56. -/
noncomputable def volumeSeverity (z : ℝ) : AnomalySeverity :=
  if 5 ≤ |z| then AnomalySeverity.Critical
  else if 4 ≤ |z| then AnomalySeverity.High
  else if 3 ≤ |z| then AnomalySeverity.Medium
  else AnomalySeverity.Low

/-- C3 amended: once the pushed window holds at least min_samples samples,
VolumeAnomalyDetector::detect fires iff the absolute z-score reaches the
threshold AND the absolute percentage change reaches
min_percentage_change, where the percentage change is (v − mean)/mean·100
when the mean is strictly positive and 0 otherwise (so also 0 for a
negative mean, not only for mean = 0); the anomaly is a VolumeSpike whose
severity is Critical for a z-magnitude of at least 5, High at 4, Medium
at 3, else Low. -/
theorem c3_volume_detector_fire_characterisation
    (d : VolumeAnomalyDetector) (data : TimeSeriesData ℝ)
    (h : d.config.min_samples ≤ (d.window.push data).data.length) :
    ((d.detect data).2 ≠ none ↔
      d.config.z_score_threshold
          ≤ |(d.window.push data).zScore data.value| ∧
      d.config.min_percentage_change
          ≤ |volumePctChange (d.window.push data) data.value|) ∧
    ∀ a, (d.detect data).2 = some a →
      a.anomaly_type = AnomalyType.VolumeSpike ∧
      a.metrics.z_score = some ((d.window.push data).zScore data.value) ∧
      a.metrics.percentage_change
        = some (volumePctChange (d.window.push data) data.value) ∧
      a.severity
        = volumeSeverity ((d.window.push data).zScore data.value) := by
  have hnot : ¬ (d.window.push data).data.length < d.config.min_samples :=
    not_lt.mpr h
  unfold VolumeAnomalyDetector.detect
  simp only [TimeSeriesWindow.len]
  rw [if_neg hnot]
  by_cases hfire :
      d.config.z_score_threshold
          ≤ |(d.window.push data).zScore data.value| ∧
      d.config.min_percentage_change
          ≤ |volumePctChange (d.window.push data) data.value|
  · rw [if_pos (by simpa [volumePctChange] using hfire)]
    constructor
    · simpa using hfire
    · intro a ha
      simp only [Option.some.injEq] at ha
      subst ha
      refine ⟨rfl, rfl, by simp [volumePctChange], by simp [volumeSeverity]⟩
  · rw [if_neg (by simpa [volumePctChange] using hfire)]
    constructor
    · simpa using hfire
    · intro a ha
      simp at ha

/-- C3 counterexample: a window holding the volumes −30 and −10 has mean
−20 and standard deviation 10, so the new sample −10 has z-score 1 and
the claim's percentage formula gives (−10 − (−20))/(−20)·100 = −50.  With
thresholds z ≥ 1 and pct ≥ 50 the claim as stated predicts an anomaly,
but the code zeroes the percentage change for every non-positive mean
(not only for mean = 0) and returns None. -/
theorem c3_counterexample :
    ((VolumeAnomalyDetector.mk ⟨1, 50, 10, 2⟩ "s" "e"
        ⟨[⟨0, -30⟩], 10, -30, 900⟩).detect ⟨1, -10⟩).2 = none ∧
    ((VolumeAnomalyDetector.mk ⟨1, 50, 10, 2⟩ "s" "e"
        ⟨[⟨0, -30⟩], 10, -30, 900⟩).window.push ⟨1, -10⟩).mean = -20 ∧
    ((VolumeAnomalyDetector.mk ⟨1, 50, 10, 2⟩ "s" "e"
        ⟨[⟨0, -30⟩], 10, -30, 900⟩).window.push ⟨1, -10⟩).zScore (-10)
      = 1 ∧
    (1 : ℝ) ≤ |(1 : ℝ)| ∧
    (50 : ℝ) ≤ |((-10 : ℝ) - (-20)) / (-20) * 100| := by
  have hpush :
      (VolumeAnomalyDetector.mk ⟨1, 50, 10, 2⟩ "s" "e"
          ⟨[⟨0, -30⟩], 10, -30, 900⟩).window.push ⟨1, -10⟩
        = ⟨[⟨0, -30⟩, ⟨1, -10⟩], 10, -40, 1000⟩ := by
    rw [TimeSeriesWindow.push_not_full _ _ (by norm_num)]
    norm_num
  have hmean :
      (TimeSeriesWindow.mk [⟨0, -30⟩, ⟨1, -10⟩] 10 (-40) (1000 : ℝ)).mean
        = -20 := by
    simp [TimeSeriesWindow.mean]
    norm_num
  have hsd :
      (TimeSeriesWindow.mk [⟨0, -30⟩, ⟨1, -10⟩] 10 (-40) (1000 : ℝ)).std_dev
        = 10 := by
    rw [TimeSeriesWindow.std_dev, if_neg (by norm_num)]
    rw [hmean]
    have h100 : ((1000 : ℝ) / 2 - (-20) * (-20)) = 100 := by norm_num
    simp only [List.length_cons, List.length_nil]
    rw [show ((2 : ℕ) : ℝ) = (2 : ℝ) by norm_num] at *
    rw [show ((1000 : ℝ) / 2 - (-20) * (-20)) = 100 from h100]
    rw [max_eq_left (by norm_num)]
    rw [show (100 : ℝ) = 10 ^ 2 by norm_num]
    exact Real.sqrt_sq (by norm_num)
  have hz :
      (TimeSeriesWindow.mk [⟨0, -30⟩, ⟨1, -10⟩] 10 (-40) (1000 : ℝ)).zScore
        (-10) = 1 := by
    rw [TimeSeriesWindow.zScore, if_neg (by rw [hsd]; norm_num), hsd, hmean]
    norm_num
  refine ⟨?_, ?_, ?_, by norm_num, by rw [abs_of_nonpos (by norm_num)]; norm_num⟩
  · unfold VolumeAnomalyDetector.detect
    simp only [TimeSeriesWindow.len, hpush]
    rw [if_neg (by norm_num)]
    rw [if_neg]
    rw [hmean]
    rw [if_neg (by norm_num)]
    simp
  · rw [hpush]
    exact hmean
  · rw [hpush]
    exact hz

/-- Feeding a list of samples one by one through
PriceAnomalyDetector::detect, returning the final state and the list of
per-sample results. -/
noncomputable def PriceAnomalyDetector.runList (d : PriceAnomalyDetector)
    (ds : List (TimeSeriesData ℝ)) :
    PriceAnomalyDetector × List (Option (AnomalyDetection ℝ)) :=
  match ds with
  | [] => (d, [])
  | x :: xs =>
      let r := d.detect x
      let rest := r.1.runList xs
      (rest.1, r.2 :: rest.2)

theorem PriceAnomalyDetector.runList_nil (d : PriceAnomalyDetector) :
    d.runList [] = (d, []) := rfl

theorem PriceAnomalyDetector.runList_cons (d : PriceAnomalyDetector)
    (x : TimeSeriesData ℝ) (xs : List (TimeSeriesData ℝ)) :
    d.runList (x :: xs)
      = (((d.detect x).1.runList xs).1,
          (d.detect x).2 :: ((d.detect x).1.runList xs).2) := rfl

theorem PriceAnomalyDetector.runList_append (d : PriceAnomalyDetector)
    (l1 l2 : List (TimeSeriesData ℝ)) :
    d.runList (l1 ++ l2)
      = (((d.runList l1).1.runList l2).1,
          (d.runList l1).2 ++ ((d.runList l1).1.runList l2).2) := by
  induction l1 generalizing d with
  | nil => simp [PriceAnomalyDetector.runList]
  | cons x xs ih => simp [PriceAnomalyDetector.runList, ih]

/-- Detector state of the C4 scenario after k identical samples of price
30000 under the default config (window 60, min_samples 30). -/
noncomputable def c4State (k : ℕ) : PriceAnomalyDetector :=
  { config := PriceAnomalyConfig.default, symbol := "s", exchange := "e",
    window :=
      { data := List.replicate k ⟨0, 30000⟩, max_size := 60,
        sum := (k : ℝ) * 30000, sum_squared := (k : ℝ) * 900000000 },
    last_price := some 30000 }

theorem TimeSeriesWindow.mean_eq (w : TimeSeriesWindow ℝ)
    (h : w.data ≠ []) : w.mean = w.sum / (w.data.length : ℝ) := by
  unfold TimeSeriesWindow.mean
  cases hd : w.data with
  | nil => exact absurd hd h
  | cons a l => rfl

theorem c4_push_const (k : ℕ) (hk : k < 60) :
    (c4State k).window.push ⟨0, 30000⟩ = (c4State (k + 1)).window := by
  rw [TimeSeriesWindow.push_not_full _ _
    (by simp [c4State]; omega)]
  have h1 : List.replicate k (⟨0, 30000⟩ : TimeSeriesData ℝ)
      ++ [⟨0, 30000⟩] = List.replicate (k + 1) ⟨0, 30000⟩ :=
    (List.replicate_succ' k _).symm
  have h2 : ((k : ℝ)) * 30000 + (30000 : ℝ)
      = (((k + 1 : ℕ)) : ℝ) * 30000 := by
    push_cast
    ring
  have h3 : ((k : ℝ)) * 900000000 + (30000 : ℝ) * 30000
      = (((k + 1 : ℕ)) : ℝ) * 900000000 := by
    push_cast
    ring
  simp only [c4State]
  rw [h1, h2, h3]

theorem c4_step (k : ℕ) (hk : k + 1 ≤ 30) :
    (c4State k).detect ⟨0, 30000⟩ = (c4State (k + 1), none) := by
  have hpush := c4_push_const k (by omega)
  unfold PriceAnomalyDetector.detect
  simp only [TimeSeriesWindow.len, hpush]
  rcases lt_or_eq_of_le hk with hlt | heq
  · rw [if_pos (by simp [c4State, PriceAnomalyConfig.default]; omega)]
    simp [c4State]
  · obtain rfl : k = 29 := by omega
    have hne : (c4State (29 + 1)).window.data ≠ [] := by
      simp [c4State]
    have hmean : (c4State (29 + 1)).window.mean = 30000 := by
      rw [TimeSeriesWindow.mean_eq _ hne]
      simp [c4State]
    have hsd : (c4State (29 + 1)).window.std_dev = 0 := by
      rw [TimeSeriesWindow.std_dev, if_neg (by simp [c4State])]
      rw [hmean]
      have hvar : (c4State (29 + 1)).window.sum_squared
            / (((c4State (29 + 1)).window.data.length : ℕ) : ℝ)
          - (30000 : ℝ) * 30000 = 0 := by
        simp only [c4State]
        norm_num
      rw [hvar, max_self, Real.sqrt_zero]
    have hz : (c4State (29 + 1)).window.zScore 30000 = 0 := by
      rw [TimeSeriesWindow.zScore, if_pos hsd]
    rw [if_neg (by simp [c4State, PriceAnomalyConfig.default])]
    rw [hz]
    simp only [c4State, PriceAnomalyConfig.default]
    rw [if_neg (by norm_num)]

theorem c4_step0 :
    (PriceAnomalyDetector.new PriceAnomalyConfig.default "s" "e").detect
      ⟨0, 30000⟩ = (c4State 1, none) := by
  unfold PriceAnomalyDetector.detect
  have hpush :
      (PriceAnomalyDetector.new PriceAnomalyConfig.default
          "s" "e").window.push ⟨0, 30000⟩ = (c4State 1).window := by
    rw [TimeSeriesWindow.push_not_full _ _
      (by simp [PriceAnomalyDetector.new, PriceAnomalyConfig.default,
        TimeSeriesWindow.new])]
    simp [PriceAnomalyDetector.new, PriceAnomalyConfig.default,
      TimeSeriesWindow.new, c4State]
    norm_num
  simp only [TimeSeriesWindow.len, hpush]
  rw [if_pos (by simp [c4State, PriceAnomalyDetector.new,
    PriceAnomalyConfig.default])]
  simp [c4State, PriceAnomalyDetector.new, PriceAnomalyConfig.default]

theorem c4_run_constant (m : ℕ) :
    ∀ k, 1 ≤ k → k + m ≤ 30 →
    (c4State k).runList (List.replicate m ⟨0, 30000⟩)
      = (c4State (k + m), List.replicate m none) := by
  induction m with
  | zero => intro k _ _; simp [PriceAnomalyDetector.runList]
  | succ m ih =>
      intro k hk hkm
      rw [List.replicate_succ, List.replicate_succ]
      simp only [PriceAnomalyDetector.runList]
      rw [c4_step k (by omega)]
      have h2 := ih (k + 1) (by omega) (by omega)
      simp only [h2]
      rw [show k + (m + 1) = k + 1 + m by omega]

/-- Window contents of the C4 scenario after the 31st push: thirty
samples at 30000 followed by one at 31800. -/
noncomputable def c4FinalWindow : TimeSeriesWindow ℝ :=
  { data := List.replicate 30 ⟨0, 30000⟩ ++ [⟨0, 31800⟩], max_size := 60,
    sum := 931800, sum_squared := 28011240000 }

theorem c4_push_final :
    (c4State 30).window.push ⟨0, 31800⟩ = c4FinalWindow := by
  rw [TimeSeriesWindow.push_not_full _ _ (by simp [c4State])]
  simp only [c4State, c4FinalWindow, TimeSeriesWindow.mk.injEq]
  norm_num

theorem c4_final_mean : c4FinalWindow.mean = 931800 / 31 := by
  rw [TimeSeriesWindow.mean_eq _ (by simp [c4FinalWindow])]
  simp [c4FinalWindow]

theorem c4_final_sd :
    c4FinalWindow.std_dev = Real.sqrt (97200000 / 961) := by
  rw [TimeSeriesWindow.std_dev, if_neg (by simp [c4FinalWindow])]
  rw [c4_final_mean]
  have h31 : ((c4FinalWindow.data.length : ℕ) : ℝ) = 31 := by
    simp [c4FinalWindow]
  rw [h31]
  have hmax :
      max ((28011240000 : ℝ) / 31 - 931800 / 31 * (931800 / 31)) 0
        = 97200000 / 961 := by
    rw [max_eq_left (by norm_num)]
    norm_num
  rw [show c4FinalWindow.sum_squared = (28011240000 : ℝ) from rfl, hmax]

theorem c4_final_sd_pos : 0 < c4FinalWindow.std_dev := by
  rw [c4_final_sd]
  exact Real.sqrt_pos.mpr (by norm_num)

theorem c4_final_sd_le : c4FinalWindow.std_dev ≤ 10800 / 31 := by
  rw [c4_final_sd]
  calc Real.sqrt (97200000 / 961)
      ≤ Real.sqrt ((10800 / 31) ^ 2) := Real.sqrt_le_sqrt (by norm_num)
    _ = 10800 / 31 := Real.sqrt_sq (by norm_num)

theorem c4_final_z5 : 5 ≤ c4FinalWindow.zScore 31800 := by
  rw [TimeSeriesWindow.zScore, if_neg c4_final_sd_pos.ne']
  rw [c4_final_mean]
  have h54 : (31800 : ℝ) - 931800 / 31 = 54000 / 31 := by norm_num
  rw [h54, le_div_iff₀ c4_final_sd_pos]
  calc 5 * c4FinalWindow.std_dev
      ≤ 5 * (10800 / 31) := by
        exact mul_le_mul_of_nonneg_left c4_final_sd_le (by norm_num)
    _ = 54000 / 31 := by norm_num

theorem c4_detect_final :
    ∃ dfin a, (c4State 30).detect ⟨0, 31800⟩ = (dfin, some a) ∧
      a.anomaly_type = AnomalyType.PriceSpike ∧
      a.severity = AnomalySeverity.Critical ∧
      a.metrics.percentage_change = some 6 := by
  have habs : |c4FinalWindow.zScore 31800| = c4FinalWindow.zScore 31800 :=
    abs_of_nonneg (by linarith [c4_final_z5])
  have habs5 : (5 : ℝ) ≤ |c4FinalWindow.zScore 31800| := by
    rw [habs]
    exact c4_final_z5
  have hpct6 : ((31800 : ℝ) - 30000) / 30000 * 100 = 6 := by norm_num
  unfold PriceAnomalyDetector.detect
  simp only [TimeSeriesWindow.len, c4_push_final]
  rw [if_neg (by simp [c4FinalWindow, c4State, PriceAnomalyConfig.default])]
  simp only [c4State, PriceAnomalyConfig.default]
  have hif : (if (0 : ℝ) < 30000
      then ((31800 : ℝ) - 30000) / 30000 * 100 else 0) = 6 := by
    rw [if_pos (by norm_num : (0 : ℝ) < 30000)]
    norm_num
  simp only [hif]
  have habs6 : |(6 : ℝ)| = 6 := abs_of_nonneg (by norm_num)
  have hfire : (5 : ℝ) ≤ |(6 : ℝ)| ∨
      (3 : ℝ) ≤ |c4FinalWindow.zScore 31800| := by
    left
    rw [habs6]
    norm_num
  have hsev : (10 : ℝ) ≤ |(6 : ℝ)| ∨
      (5 : ℝ) ≤ |c4FinalWindow.zScore 31800| := Or.inr habs5
  rw [if_pos hfire, if_pos hsev]
  exact ⟨_, _, rfl, rfl, rfl, rfl⟩

/-- Input sequence of the C4 scenario: thirty samples at price 30000
followed by one at 31800 (a +6 percent move). -/
noncomputable def c4Inputs : List (TimeSeriesData ℝ) :=
  List.replicate 30 ⟨0, 30000⟩ ++ [⟨0, 31800⟩]

theorem c4_run_shape :
    ∃ dfin a,
      (PriceAnomalyDetector.new PriceAnomalyConfig.default "s" "e").runList
          c4Inputs
        = (dfin, List.replicate 30 none ++ [some a]) ∧
      a.anomaly_type = AnomalyType.PriceSpike ∧
      a.severity = AnomalySeverity.Critical ∧
      a.metrics.percentage_change = some 6 := by
  obtain ⟨dfin, a, hfin, hty, hsev, hpct⟩ := c4_detect_final
  refine ⟨dfin, a, ?_, hty, hsev, hpct⟩
  have h1 : c4Inputs
      = (⟨0, 30000⟩ : TimeSeriesData ℝ)
        :: (List.replicate 29 ⟨0, 30000⟩ ++ [⟨0, 31800⟩]) := by
    rw [c4Inputs, List.replicate_succ, List.cons_append]
  have h2 : (c4State 30).runList [⟨0, 31800⟩] = (dfin, [some a]) := by
    rw [PriceAnomalyDetector.runList_cons, hfin]
    rfl
  rw [h1, PriceAnomalyDetector.runList_cons, c4_step0]
  dsimp only
  rw [PriceAnomalyDetector.runList_append,
    c4_run_constant 29 1 (by omega) (by omega)]
  dsimp only
  rw [show (1 : ℕ) + 29 = 30 from by norm_num, h2]
  simp [List.replicate_succ]

/-- C4 counterexample: in the exact default-config run of thirty samples
at 30000 followed by 31800, the 31st sample does fire, but its severity
is Critical, not Medium as the claim states: the z-score of the 31st
sample over the pushed window is the square root of 30, which is at
least 5, and the severity ladder of PriceAnomalyDetector::detect maps a
z-magnitude of at least 5 to Critical. -/
theorem c4_counterexample :
    ∃ dfin a,
      (PriceAnomalyDetector.new PriceAnomalyConfig.default "s" "e").runList
          c4Inputs
        = (dfin, List.replicate 30 none ++ [some a]) ∧
      a.severity = AnomalySeverity.Critical ∧
      a.severity ≠ AnomalySeverity.Medium := by
  obtain ⟨dfin, a, hrun, _, hsev, _⟩ := c4_run_shape
  exact ⟨dfin, a, hrun, hsev, by rw [hsev]; exact fun h => by cases h⟩

/-- C4 amended: the fresh default-config PriceAnomalyDetector fed 30000
thirty times and then 31800 returns None for each of the first 30 samples
and on the 31st sample returns exactly one anomaly of type PriceSpike
with percentage_change exactly 6, whose severity is Critical (not
Medium, because the z-score is √30 ≥ 5). -/
theorem c4_default_price_run :
    ∃ dfin a,
      (PriceAnomalyDetector.new PriceAnomalyConfig.default "s" "e").runList
          c4Inputs
        = (dfin, List.replicate 30 none ++ [some a]) ∧
      a.anomaly_type = AnomalyType.PriceSpike ∧
      a.severity = AnomalySeverity.Critical ∧
      a.metrics.percentage_change = some 6 := c4_run_shape

/-- Extended scalar modelling an f64 that may be nan or an infinity;
finite values carry an exact scalar (we do not distinguish a signed
zero).  Arithmetic follows IEEE-754: nan propagates, inf − inf, 0·inf
and inf/inf are nan, division of a nonzero finite value by zero gives a
signed infinity, and 0/0 is nan. -/
inductive EFloat (α : Type) where
  | fin (x : α)
  | nan
  | inf
  | ninf
deriving DecidableEq, Repr

namespace EFloat

variable {α : Type} [LinearOrderedField α]

def add : EFloat α → EFloat α → EFloat α
  | nan, _ => nan
  | _, nan => nan
  | fin a, fin b => fin (a + b)
  | fin _, inf => inf
  | fin _, ninf => ninf
  | inf, fin _ => inf
  | ninf, fin _ => ninf
  | inf, inf => inf
  | inf, ninf => nan
  | ninf, inf => nan
  | ninf, ninf => ninf

def sub : EFloat α → EFloat α → EFloat α
  | nan, _ => nan
  | _, nan => nan
  | fin a, fin b => fin (a - b)
  | fin _, inf => ninf
  | fin _, ninf => inf
  | inf, fin _ => inf
  | ninf, fin _ => ninf
  | inf, inf => nan
  | inf, ninf => inf
  | ninf, inf => ninf
  | ninf, ninf => nan

def mul : EFloat α → EFloat α → EFloat α
  | nan, _ => nan
  | _, nan => nan
  | fin a, fin b => fin (a * b)
  | fin a, inf => if a = 0 then nan else if 0 < a then inf else ninf
  | fin a, ninf => if a = 0 then nan else if 0 < a then ninf else inf
  | inf, fin b => if b = 0 then nan else if 0 < b then inf else ninf
  | ninf, fin b => if b = 0 then nan else if 0 < b then ninf else inf
  | inf, inf => inf
  | inf, ninf => ninf
  | ninf, inf => ninf
  | ninf, ninf => inf

def div : EFloat α → EFloat α → EFloat α
  | nan, _ => nan
  | _, nan => nan
  | fin a, fin b =>
      if b = 0 then (if a = 0 then nan else if 0 < a then inf else ninf)
      else fin (a / b)
  | fin _, inf => fin 0
  | fin _, ninf => fin 0
  | inf, fin b => if 0 ≤ b then inf else ninf
  | ninf, fin b => if 0 ≤ b then ninf else inf
  | inf, inf => nan
  | inf, ninf => nan
  | ninf, inf => nan
  | ninf, ninf => nan

/-- Strict less-than as Rust compares f64 with the less-than operator:
false whenever either side is nan. -/
def blt : EFloat α → EFloat α → Bool
  | nan, _ => false
  | _, nan => false
  | fin a, fin b => decide (a < b)
  | fin _, inf => true
  | fin _, ninf => false
  | inf, _ => false
  | ninf, ninf => false
  | ninf, _ => true

/-- abs on f64. -/
def eAbs : EFloat α → EFloat α
  | nan => nan
  | inf => inf
  | ninf => inf
  | fin a => fin |a|

/-- Rust f64::max: the maximum of the two numbers, ignoring nan. -/
def fmax : EFloat α → EFloat α → EFloat α
  | nan, b => b
  | a, nan => a
  | fin a, fin b => fin (max a b)
  | _, inf => inf
  | inf, _ => inf
  | a, ninf => a
  | ninf, b => b

/-- Rust f64::min: the minimum of the two numbers, ignoring nan. -/
def fmin : EFloat α → EFloat α → EFloat α
  | nan, b => b
  | a, nan => a
  | fin a, fin b => fin (min a b)
  | _, ninf => ninf
  | ninf, _ => ninf
  | a, inf => a
  | inf, b => b

/-- Rust partial_cmp on f64: None iff either side is nan. -/
def pcmp : EFloat α → EFloat α → Option Ordering
  | nan, _ => none
  | _, nan => none
  | fin a, fin b =>
      some (if a < b then Ordering.lt
        else if a = b then Ordering.eq else Ordering.gt)
  | fin _, inf => some Ordering.lt
  | fin _, ninf => some Ordering.gt
  | inf, inf => some Ordering.eq
  | inf, _ => some Ordering.gt
  | ninf, ninf => some Ordering.eq
  | ninf, _ => some Ordering.lt

def isNan : EFloat α → Prop
  | nan => True
  | _ => False

instance : DecidablePred (isNan : EFloat α → Prop) := fun x => by
  cases x <;> simp [isNan] <;> infer_instance

instance : Add (EFloat α) := ⟨add⟩

instance : Sub (EFloat α) := ⟨sub⟩

instance : Mul (EFloat α) := ⟨mul⟩

instance : Div (EFloat α) := ⟨div⟩

instance : Zero (EFloat α) := ⟨fin 0⟩

theorem add_def (a b : EFloat α) : a + b = add a b := rfl

theorem sub_def (a b : EFloat α) : a - b = sub a b := rfl

theorem mul_def (a b : EFloat α) : a * b = mul a b := rfl

theorem div_def (a b : EFloat α) : a / b = div a b := rfl

theorem fin_add (a b : α) : (fin a) + (fin b) = fin (a + b) := rfl

theorem fin_sub (a b : α) : (fin a) - (fin b) = fin (a - b) := rfl

theorem fin_mul (a b : α) : (fin a) * (fin b) = fin (a * b) := rfl

theorem add_nan (a : EFloat α) : a + nan = nan := by
  cases a <;> rfl

theorem nan_mul (a : EFloat α) : (nan : EFloat α) * a = nan := by
  cases a <;> rfl

theorem mul_nan (a : EFloat α) : a * nan = nan := by
  cases a <;> rfl

def neg : EFloat α → EFloat α
  | nan => nan
  | inf => ninf
  | ninf => inf
  | fin a => fin (-a)

instance : Neg (EFloat α) := ⟨neg⟩

theorem neg_def (a : EFloat α) : -a = neg a := rfl

end EFloat

/-- Scalar type of the analyzer embedding: an exact-rational extended
float, on which every operation is computable. -/
abbrev FQ := EFloat ℚ

/-- Largest finite f64 value, 2^1024 − 2^971, as an exact rational. -/
def f64MaxQ : ℚ := 2 ^ 1024 - 2 ^ 971

/-- Rust iter().sum over f64: a left fold of IEEE addition starting at
0.0. -/
def sumE {α : Type} [LinearOrderedField α] (l : List (EFloat α)) :
    EFloat α :=
  l.foldl (· + ·) (EFloat.fin 0)

/-- Rust struct MetricsCalculator, monitor-anomaly/src/metrics.rs lines
6-8.  The HashMap of TimeSeriesWindow becomes an association list keyed
by the metric name, over the same FQ scalars as the analyzer. -/
structure MetricsCalculator where
  windows : List (String × TimeSeriesWindow FQ)

/-- MetricsCalculator::new, metrics.rs lines 11-15. -/
def MetricsCalculator.new : MetricsCalculator := ⟨[]⟩

/-- Entry-or-insert-then-push over the association-list model of the
windows map: the stored window at the key is pushed into in place, and a
missing key first gets a fresh TimeSeriesWindow of the given size. -/
def MetricsCalculator.updateWindows (key : String)
    (data : TimeSeriesData FQ) (window_size : ℕ) :
    List (String × TimeSeriesWindow FQ) →
      List (String × TimeSeriesWindow FQ)
  | [] => [(key, (TimeSeriesWindow.new FQ window_size).push data)]
  | (k, w) :: rest =>
      if k = key then (k, w.push data) :: rest
      else (k, w) :: MetricsCalculator.updateWindows key data window_size
        rest

/-- MetricsCalculator::add_data, metrics.rs lines 17-21: look the key up,
inserting a fresh TimeSeriesWindow of the given window_size when absent
(the size argument is used only at window creation), then push the sample
into the stored window. -/
def MetricsCalculator.addData (m : MetricsCalculator) (key : String)
    (data : TimeSeriesData FQ) (window_size : ℕ) : MetricsCalculator :=
  ⟨MetricsCalculator.updateWindows key data window_size m.windows⟩

/-- Rust struct MarketAnalyzer, analyzer.rs lines 10-17.  The VecDeque
histories are lists whose head is the front (oldest) element. -/
structure MarketAnalyzer where
  symbol : String
  exchange : String
  metrics : MetricsCalculator
  price_history : List FQ
  volume_history : List FQ
  max_history_size : ℕ

/-- MarketAnalyzer::new, analyzer.rs lines 20-29. -/
def MarketAnalyzer.new (symbol exchange : String) : MarketAnalyzer :=
  { symbol := symbol, exchange := exchange,
    metrics := MetricsCalculator.new, price_history := [],
    volume_history := [], max_history_size := 1000 }

/-- MarketAnalyzer::update_history, analyzer.rs lines 74-84. -/
def MarketAnalyzer.updateHistory (a : MarketAnalyzer)
    (price volume : FQ) : MarketAnalyzer :=
  let ph := a.price_history ++ [price]
  let ph := if a.max_history_size < ph.length then ph.tail else ph
  let vh := a.volume_history ++ [volume]
  let vh := if a.max_history_size < vh.length then vh.tail else vh
  { a with price_history := ph, volume_history := vh }

/-- MarketAnalyzer::check_unusual_volume, analyzer.rs lines 86-130.  Its
only partial operation is back()?, whose None case Rust turns into an
early None return, so the function is total. -/
def MarketAnalyzer.checkUnusualVolume (a : MarketAnalyzer) :
    Option (AnomalyDetection FQ) :=
  if a.volume_history.length < 30 then none
  else
    match a.volume_history.getLast? with
    | none => none
    | some current_volume =>
      let avg_volume := sumE a.volume_history
        / EFloat.fin ((a.volume_history.length : ℚ))
      let volume_ratio := current_volume / avg_volume
      if (EFloat.fin 5).blt volume_ratio then
        some
          { timestamp := 0, symbol := a.symbol, exchange := a.exchange
            anomaly_type := AnomalyType.UnusualActivity
            severity :=
              if (EFloat.fin 10).blt volume_ratio then
                AnomalySeverity.Critical
              else AnomalySeverity.High
            metrics :=
              { current_value := current_volume
                expected_value := avg_volume
                deviation := current_volume - avg_volume
                z_score := none
                percentage_change :=
                  some ((volume_ratio - EFloat.fin 1) * EFloat.fin 100)
                historical_avg := some avg_volume
                historical_std := none } }
      else none

/-- MarketAnalyzer::check_price_manipulation, analyzer.rs lines 132-185.
The outer Option models a panic of the fixed indexings
recent_prices[0] and recent_prices[9]. -/
def MarketAnalyzer.checkPriceManipulation (a : MarketAnalyzer) :
    Option (Option (AnomalyDetection FQ)) :=
  if a.price_history.length < 10 then some none
  else
    let recent := a.price_history.reverse.take 10
    match recent[0]?, recent[9]? with
    | none, _ => none
    | _, none => none
    | some r0, some r9 =>
    let price_change := (r0 - r9) / r9 * EFloat.fin 100
    let avg_volume := sumE (a.volume_history.reverse.take 10)
      / EFloat.fin 10
    let historical_avg_volume := sumE a.volume_history
      / EFloat.fin ((a.volume_history.length : ℚ))
    if (EFloat.fin 3).blt price_change.eAbs
        && avg_volume.blt (historical_avg_volume * EFloat.fin (1 / 2)) then
      some (some
        { timestamp := 0, symbol := a.symbol, exchange := a.exchange
          anomaly_type := AnomalyType.UnusualActivity
          severity := AnomalySeverity.High
          metrics :=
            { current_value := r0, expected_value := r9
              deviation := r0 - r9, z_score := none
              percentage_change := some price_change
              historical_avg := some historical_avg_volume
              historical_std := none } })
    else some none

/-- MarketAnalyzer::check_flash_crash, analyzer.rs lines 187-234.  The
outer Option models a panic of the fixed indexing recent_prices[0]; the
max and min are IEEE folds started at f64::MIN and f64::MAX. -/
def MarketAnalyzer.checkFlashCrash (a : MarketAnalyzer) :
    Option (Option (AnomalyDetection FQ)) :=
  if a.price_history.length < 5 then some none
  else
    let recent := a.price_history.reverse.take 5
    let max_price := recent.foldl EFloat.fmax (EFloat.fin (-f64MaxQ))
    let min_price := recent.foldl EFloat.fmin (EFloat.fin f64MaxQ)
    match recent[0]? with
    | none => none
    | some current_price =>
    let drop_percentage := (max_price - min_price) / max_price
      * EFloat.fin 100
    if (EFloat.fin 10).blt drop_percentage
        && current_price.blt (max_price * EFloat.fin (9 / 10)) then
      some (some
        { timestamp := 0, symbol := a.symbol, exchange := a.exchange
          anomaly_type := AnomalyType.PriceSpike
          severity := AnomalySeverity.Critical
          metrics :=
            { current_value := current_price, expected_value := max_price
              deviation := current_price - max_price, z_score := none
              percentage_change := some (-drop_percentage)
              historical_avg := none, historical_std := none } })
    else some none

/-- Helper of maxByLast: the running fold of Rust Iterator::max_by with
comparator a.partial_cmp(b).unwrap(): the accumulator is kept only on
Greater, so on ties the later element wins; an incomparable pair (one
side nan) is the unwrap panic, modelled as none. -/
def maxByLastGo (acc : ℕ × FQ) : List (ℕ × FQ) → Option (ℕ × FQ)
  | [] => some acc
  | y :: ys =>
      match EFloat.pcmp acc.2 y.2 with
      | none => none
      | some Ordering.gt => maxByLastGo acc ys
      | some _ => maxByLastGo y ys

/-- Rust max_by(...).unwrap() over an enumerated price list: none models
the panic on an empty list or on a nan comparison. -/
def maxByLast : List (ℕ × FQ) → Option (ℕ × FQ)
  | [] => none
  | x :: xs => maxByLastGo x xs

/-- MarketAnalyzer::check_pump_dump, analyzer.rs lines 236-301.  The
outer Option models the two unwrap panics (empty max_by and nan
partial_cmp) and the fixed indexings prices[19] and prices[0]. -/
def MarketAnalyzer.checkPumpDump (a : MarketAnalyzer) :
    Option (Option (AnomalyDetection FQ)) :=
  if a.price_history.length < 20 ∨ a.volume_history.length < 20 then
    some none
  else
    let prices := a.price_history.reverse.take 20
    match maxByLast prices.enum with
    | none => none
    | some pk =>
    let peak_idx := pk.1
    let peak_price := pk.2
    if 5 < peak_idx ∧ peak_idx < 15 then
      match prices[19]?, prices[0]? with
      | none, _ => none
      | _, none => none
      | some price_before, some price_after =>
      let pump_percentage := (peak_price - price_before) / price_before
        * EFloat.fin 100
      let dump_percentage := (peak_price - price_after) / peak_price
        * EFloat.fin 100
      if (EFloat.fin 20).blt pump_percentage
          && (EFloat.fin 15).blt dump_percentage then
        some (some
          { timestamp := 0, symbol := a.symbol, exchange := a.exchange
            anomaly_type := AnomalyType.UnusualActivity
            severity := AnomalySeverity.Critical
            metrics :=
              { current_value := price_after
                expected_value := price_before
                deviation := price_after - price_before
                z_score := none
                percentage_change := some pump_percentage
                historical_avg := none, historical_std := none } })
      else some none
    else some none

/-- MarketAnalyzer::analyze_market_data, analyzer.rs lines 31-72: update
the histories and the metrics, then run the four checks in order and
collect the fired anomalies.  The outer Option models a panic of any
check. -/
def MarketAnalyzer.analyzeMarketData (a : MarketAnalyzer)
    (price volume : FQ) :
    Option (MarketAnalyzer × List (AnomalyDetection FQ)) :=
  let a1 := a.updateHistory price volume
  let a2 := { a1 with
    metrics := (a1.metrics.addData "price" ⟨0, price⟩ 60).addData
      "volume" ⟨0, volume⟩ 60 }
  let r1 := a2.checkUnusualVolume
  match a2.checkPriceManipulation, a2.checkFlashCrash,
      a2.checkPumpDump with
  | some r2, some r3, some r4 =>
      some (a2, [r1, r2, r3, r4].filterMap id)
  | _, _, _ => none

theorem foldl_max_le_self (l : List ℚ) (c : ℚ) : c ≤ l.foldl max c := by
  induction l generalizing c with
  | nil => exact le_refl c
  | cons a t ih => exact le_trans (le_max_left c a) (ih (max c a))

theorem le_foldl_max (l : List ℚ) (c : ℚ) :
    ∀ x ∈ l, x ≤ l.foldl max c := by
  induction l generalizing c with
  | nil => intro x hx; cases hx
  | cons a t ih =>
      intro x hx
      rcases List.mem_cons.mp hx with rfl | hx
      · exact le_trans (le_max_right c x) (foldl_max_le_self t (max c x))
      · exact ih (max c a) x hx

theorem foldl_max_mem_or (l : List ℚ) (c : ℚ) :
    l.foldl max c = c ∨ l.foldl max c ∈ l := by
  induction l generalizing c with
  | nil => exact Or.inl rfl
  | cons a t ih =>
      rcases ih (max c a) with h | h
      · rcases max_cases c a with ⟨h1, _⟩ | ⟨h1, _⟩
        · exact Or.inl (by rw [List.foldl_cons, h, h1])
        · refine Or.inr ?_
          rw [List.foldl_cons, h, h1]
          exact List.mem_cons_self a t
      · exact Or.inr (List.mem_cons_of_mem a h)

theorem foldl_min_le_self (l : List ℚ) (c : ℚ) : l.foldl min c ≤ c := by
  induction l generalizing c with
  | nil => exact le_refl c
  | cons a t ih => exact le_trans (ih (min c a)) (min_le_left c a)

theorem foldl_min_le (l : List ℚ) (c : ℚ) :
    ∀ x ∈ l, l.foldl min c ≤ x := by
  induction l generalizing c with
  | nil => intro x hx; cases hx
  | cons a t ih =>
      intro x hx
      rcases List.mem_cons.mp hx with rfl | hx
      · exact le_trans (foldl_min_le_self t (min c x)) (min_le_right c x)
      · exact ih (min c a) x hx

theorem foldl_min_mem_or (l : List ℚ) (c : ℚ) :
    l.foldl min c = c ∨ l.foldl min c ∈ l := by
  induction l generalizing c with
  | nil => exact Or.inl rfl
  | cons a t ih =>
      rcases ih (min c a) with h | h
      · rcases min_cases c a with ⟨h1, _⟩ | ⟨h1, _⟩
        · exact Or.inl (by rw [List.foldl_cons, h, h1])
        · refine Or.inr ?_
          rw [List.foldl_cons, h, h1]
          exact List.mem_cons_self a t
      · exact Or.inr (List.mem_cons_of_mem a h)

theorem foldl_fmax_map_fin (l : List ℚ) (c : ℚ) :
    (l.map EFloat.fin).foldl EFloat.fmax (EFloat.fin c)
      = EFloat.fin (l.foldl max c) := by
  induction l generalizing c with
  | nil => rfl
  | cons a t ih => exact ih (max c a)

theorem foldl_fmin_map_fin (l : List ℚ) (c : ℚ) :
    (l.map EFloat.fin).foldl EFloat.fmin (EFloat.fin c)
      = EFloat.fin (l.foldl min c) := by
  induction l generalizing c with
  | nil => rfl
  | cons a t ih => exact ih (min c a)

theorem EFloat.blt_fin (a b : ℚ) :
    (EFloat.fin a).blt (EFloat.fin b) = decide (a < b) := rfl

theorem EFloat.div_fin (a b : ℚ) (hb : b ≠ 0) :
    (EFloat.fin a) / (EFloat.fin b) = EFloat.fin (a / b) := by
  simp [EFloat.div_def, EFloat.div, hb]

/-- Detector state used by the c3 witness: thresholds z at least 1 and
pct at least 50, window of capacity 10 holding the single volume −30. -/
noncomputable def c3Detector : VolumeAnomalyDetector :=
  { config :=
      { z_score_threshold := 1, min_percentage_change := 50,
        window_size := 10, min_samples := 2 },
    symbol := "s", exchange := "e",
    window :=
      { data := [⟨0, -30⟩], max_size := 10, sum := -30,
        sum_squared := 900 } }

/-- Closed witness for c3_volume_detector_fire_characterisation at the
two-sample window holding −30 and −10 with thresholds z at least 1 and
pct at least 50. -/
theorem c3_volume_detector_fire_characterisation_witness :
    ((c3Detector.detect ⟨1, -10⟩).2 ≠ none ↔
      c3Detector.config.z_score_threshold
        ≤ |(c3Detector.window.push ⟨1, -10⟩).zScore (-10)| ∧
      c3Detector.config.min_percentage_change
        ≤ |volumePctChange (c3Detector.window.push ⟨1, -10⟩) (-10)|) ∧
    ∀ a, (c3Detector.detect ⟨1, -10⟩).2 = some a →
      a.anomaly_type = AnomalyType.VolumeSpike ∧
      a.metrics.z_score
        = some ((c3Detector.window.push ⟨1, -10⟩).zScore (-10)) ∧
      a.metrics.percentage_change
        = some (volumePctChange (c3Detector.window.push ⟨1, -10⟩) (-10)) ∧
      a.severity
        = volumeSeverity ((c3Detector.window.push ⟨1, -10⟩).zScore
            (-10)) :=
  c3_volume_detector_fire_characterisation c3Detector ⟨1, -10⟩
    (by simp [c3Detector, TimeSeriesWindow.push])

/-- C5 counterexample: (i) with the last five prices 100,100,100,100,90
the drop (hi − lo)/hi is exactly 10 percent and the newest price is
exactly 0.9·hi, so the claim's conditions (at least 10 percent, at most
0.9·hi) hold, yet check_flash_crash does not fire: the code uses strict
comparisons.  (ii) where the check does fire (prices 100,101,99,88,85,
spec scenario S3), the emitted anomaly_type is PriceSpike, not
FlashCrash: the AnomalyType enum of monitor-core has no FlashCrash
variant. -/
theorem c5_counterexample :
    ({ MarketAnalyzer.new "s" "e" with
        price_history :=
          ([100, 100, 100, 100, 90] : List ℚ).map EFloat.fin
      } : MarketAnalyzer).checkFlashCrash = some none ∧
    (10 : ℚ) ≤ (100 - 90) / 100 * 100 ∧
    (90 : ℚ) ≤ 100 * (9 / 10) ∧
    (Option.map (Option.map fun d => (d.anomaly_type, d.severity))
        ({ MarketAnalyzer.new "s" "e" with
            price_history :=
              ([100, 101, 99, 88, 85] : List ℚ).map EFloat.fin
          } : MarketAnalyzer).checkFlashCrash)
      = some (some (AnomalyType.PriceSpike, AnomalySeverity.Critical)) := by
  refine ⟨?_, by norm_num, by norm_num, ?_⟩ <;>
    norm_num [MarketAnalyzer.checkFlashCrash, MarketAnalyzer.new,
      EFloat.fmax, EFloat.fmin, EFloat.blt, EFloat.sub_def, EFloat.sub,
      EFloat.div_def, EFloat.div, EFloat.mul_def, EFloat.mul, f64MaxQ,
      max_def, min_def, Option.bind, decide_eq_true_eq, Bool.and_eq_true]

/-- C5 amended: given at least five recorded prices, all strictly
positive and strictly below the largest finite f64, the flash-crash
check over the last five prices with hi their maximum, lo their minimum
and now the newest fires iff (hi − lo)/hi·100 strictly exceeds 10 and
now is strictly below 0.9·hi; the emitted anomaly has severity Critical
and anomaly_type PriceSpike, there being no FlashCrash variant in the
AnomalyType enum. -/
theorem c5_flash_crash_characterisation (l : List ℚ) (a : MarketAnalyzer)
    (hph : a.price_history = l.map EFloat.fin) (hlen : 5 ≤ l.length)
    (hb : ∀ x ∈ l, |x| < f64MaxQ) (hpos : ∀ x ∈ l, 0 < x) :
    ∃ hi lo now : ℚ, ∃ r : Option (AnomalyDetection FQ),
      hi ∈ l.reverse.take 5 ∧ (∀ x ∈ l.reverse.take 5, x ≤ hi) ∧
      lo ∈ l.reverse.take 5 ∧ (∀ x ∈ l.reverse.take 5, lo ≤ x) ∧
      (l.reverse.take 5)[0]? = some now ∧
      a.checkFlashCrash = some r ∧
      (r.isSome ↔ (10 < (hi - lo) / hi * 100 ∧ now < hi * (9 / 10))) ∧
      (∀ det, r = some det → det.anomaly_type = AnomalyType.PriceSpike ∧
        det.severity = AnomalySeverity.Critical) := by
  set q := l.reverse.take 5 with hqdef
  have hqlen : q.length = 5 := by
    rw [hqdef, List.length_take, List.length_reverse]
    omega
  have hqsub : ∀ x ∈ q, x ∈ l := by
    intro x hx
    exact List.mem_reverse.mp (List.take_subset 5 l.reverse hx)
  obtain ⟨n, t, hq0⟩ : ∃ n t, q = n :: t := by
    cases hq : q with
    | nil => rw [hq] at hqlen; simp at hqlen
    | cons n t => exact ⟨n, t, rfl⟩
  have hn_mem : n ∈ q := by rw [hq0]; exact List.mem_cons_self n t
  have hi_ub := le_foldl_max q (-f64MaxQ)
  have lo_lb := foldl_min_le q f64MaxQ
  have hi_mem : q.foldl max (-f64MaxQ) ∈ q := by
    rcases foldl_max_mem_or q (-f64MaxQ) with h | h
    · exfalso
      have h1 : n ≤ q.foldl max (-f64MaxQ) := hi_ub n hn_mem
      have h2 : -f64MaxQ < n := (abs_lt.mp (hb n (hqsub n hn_mem))).1
      rw [h] at h1
      linarith
    · exact h
  have lo_mem : q.foldl min f64MaxQ ∈ q := by
    rcases foldl_min_mem_or q f64MaxQ with h | h
    · exfalso
      have h1 : q.foldl min f64MaxQ ≤ n := lo_lb n hn_mem
      have h2 : n < f64MaxQ := (abs_lt.mp (hb n (hqsub n hn_mem))).2
      rw [h] at h1
      linarith
    · exact h
  have hi_pos : 0 < q.foldl max (-f64MaxQ) :=
    hpos _ (hqsub _ hi_mem)
  have hrecent : (l.map EFloat.fin).reverse.take 5 = q.map EFloat.fin := by
    rw [hqdef, ← List.map_reverse, ← List.map_take]
  have hlenmap : ¬ (l.map EFloat.fin).length < 5 := by
    rw [List.length_map]
    omega
  have heval : a.checkFlashCrash
      = if ((EFloat.fin 10).blt
            (EFloat.fin ((q.foldl max (-f64MaxQ) - q.foldl min f64MaxQ)
              / q.foldl max (-f64MaxQ) * 100))
          && (EFloat.fin n).blt
            (EFloat.fin (q.foldl max (-f64MaxQ) * (9 / 10))))
        then some (some
          { timestamp := 0, symbol := a.symbol, exchange := a.exchange
            anomaly_type := AnomalyType.PriceSpike
            severity := AnomalySeverity.Critical
            metrics :=
              { current_value := EFloat.fin n
                expected_value := EFloat.fin (q.foldl max (-f64MaxQ))
                deviation := EFloat.fin n
                  - EFloat.fin (q.foldl max (-f64MaxQ))
                z_score := none
                percentage_change := some (-(EFloat.fin
                  ((q.foldl max (-f64MaxQ) - q.foldl min f64MaxQ)
                    / q.foldl max (-f64MaxQ) * 100)))
                historical_avg := none, historical_std := none } })
        else some none := by
    rw [MarketAnalyzer.checkFlashCrash, hph, if_neg hlenmap, hrecent]
    dsimp only
    rw [foldl_fmax_map_fin, foldl_fmin_map_fin, hq0]
    simp only [List.map_cons, List.getElem?_cons_zero]
    rw [EFloat.sub_def]
    simp only [EFloat.sub]
    rw [EFloat.div_fin _ _ (ne_of_gt (hq0 ▸ hi_pos))]
    rfl
  have hnow : q[0]? = some n := by rw [hq0]; simp
  by_cases h1 : 10 < (q.foldl max (-f64MaxQ) - q.foldl min f64MaxQ)
      / q.foldl max (-f64MaxQ) * 100
  · by_cases h2 : n < q.foldl max (-f64MaxQ) * (9 / 10)
    · have hb : ((EFloat.fin 10).blt
            (EFloat.fin ((q.foldl max (-f64MaxQ) - q.foldl min f64MaxQ)
              / q.foldl max (-f64MaxQ) * 100))
          && (EFloat.fin n).blt
            (EFloat.fin (q.foldl max (-f64MaxQ) * (9 / 10)))) = true := by
        simp [EFloat.blt_fin, h1, h2]
      refine ⟨q.foldl max (-f64MaxQ), q.foldl min f64MaxQ, n, _,
        hi_mem, hi_ub, lo_mem, lo_lb, hnow,
        by rw [heval, if_pos hb], ?_, ?_⟩
      · simp [h1, h2]
      · intro det hdet
        simp only [Option.some.injEq] at hdet
        rw [← hdet]
        exact ⟨rfl, rfl⟩
    · have hb : ((EFloat.fin 10).blt
            (EFloat.fin ((q.foldl max (-f64MaxQ) - q.foldl min f64MaxQ)
              / q.foldl max (-f64MaxQ) * 100))
          && (EFloat.fin n).blt
            (EFloat.fin (q.foldl max (-f64MaxQ) * (9 / 10)))) = false := by
        simp [EFloat.blt_fin, h2]
      refine ⟨q.foldl max (-f64MaxQ), q.foldl min f64MaxQ, n, none,
        hi_mem, hi_ub, lo_mem, lo_lb, hnow,
        by rw [heval, if_neg (by rw [hb]; exact Bool.false_ne_true)],
        ?_, ?_⟩
      · simp [h2]
      · intro det hdet
        cases hdet
  · have hb : ((EFloat.fin 10).blt
          (EFloat.fin ((q.foldl max (-f64MaxQ) - q.foldl min f64MaxQ)
            / q.foldl max (-f64MaxQ) * 100))
        && (EFloat.fin n).blt
          (EFloat.fin (q.foldl max (-f64MaxQ) * (9 / 10)))) = false := by
      simp [EFloat.blt_fin, h1]
    refine ⟨q.foldl max (-f64MaxQ), q.foldl min f64MaxQ, n, none,
      hi_mem, hi_ub, lo_mem, lo_lb, hnow,
      by rw [heval, if_neg (by rw [hb]; exact Bool.false_ne_true)],
      ?_, ?_⟩
    · simp [h1]
    · intro det hdet
      cases hdet

/-- Closed witness for c5_flash_crash_characterisation at the spec's S3
prices 100, 101, 99, 88, 85. -/
theorem c5_flash_crash_characterisation_witness :
    ∃ hi lo now : ℚ, ∃ r : Option (AnomalyDetection FQ),
      hi ∈ ([100, 101, 99, 88, 85] : List ℚ).reverse.take 5 ∧
      (∀ x ∈ ([100, 101, 99, 88, 85] : List ℚ).reverse.take 5, x ≤ hi) ∧
      lo ∈ ([100, 101, 99, 88, 85] : List ℚ).reverse.take 5 ∧
      (∀ x ∈ ([100, 101, 99, 88, 85] : List ℚ).reverse.take 5, lo ≤ x) ∧
      (([100, 101, 99, 88, 85] : List ℚ).reverse.take 5)[0]? = some now ∧
      ({ MarketAnalyzer.new "s" "e" with
          price_history :=
            ([100, 101, 99, 88, 85] : List ℚ).map EFloat.fin
        } : MarketAnalyzer).checkFlashCrash = some r ∧
      (r.isSome ↔ (10 < (hi - lo) / hi * 100 ∧ now < hi * (9 / 10))) ∧
      (∀ det, r = some det → det.anomaly_type = AnomalyType.PriceSpike ∧
        det.severity = AnomalySeverity.Critical) :=
  c5_flash_crash_characterisation [100, 101, 99, 88, 85] _ rfl
    (by norm_num)
    (by
      intro x hx
      simp only [List.mem_cons, List.not_mem_nil, or_false] at hx
      have hfm : (1 : ℚ) < f64MaxQ := by
        rw [f64MaxQ]
        norm_num
      rcases hx with rfl | rfl | rfl | rfl | rfl <;>
        · rw [f64MaxQ] at hfm ⊢
          rw [abs_of_nonneg (by norm_num)]
          norm_num)
    (by
      intro x hx
      simp only [List.mem_cons, List.not_mem_nil, or_false] at hx
      rcases hx with rfl | rfl | rfl | rfl | rfl <;> norm_num)

/-- Rational mirror of maxByLastGo on finite values: keep the
accumulator only when the next value is strictly smaller, so ties go to
the later element. -/
def lastMaxGoQ (acc : ℕ × ℚ) : List (ℕ × ℚ) → ℕ × ℚ
  | [] => acc
  | y :: ys => if y.2 < acc.2 then lastMaxGoQ acc ys else lastMaxGoQ y ys

theorem maxByLastGo_map_fin (xs : List (ℕ × ℚ)) :
    ∀ acc : ℕ × ℚ,
    maxByLastGo (acc.1, EFloat.fin acc.2)
        (xs.map fun p => (p.1, EFloat.fin p.2))
      = some ((lastMaxGoQ acc xs).1, EFloat.fin (lastMaxGoQ acc xs).2) := by
  induction xs with
  | nil => intro acc; rfl
  | cons y ys ih =>
      intro acc
      simp only [List.map_cons, maxByLastGo, lastMaxGoQ, EFloat.pcmp]
      by_cases h1 : acc.2 < y.2
      · rw [if_pos h1, if_neg (by linarith)]
        exact ih y
      · by_cases h2 : acc.2 = y.2
        · rw [if_neg h1, if_pos h2, if_neg (by linarith)]
          exact ih y
        · have h3 : y.2 < acc.2 := by
            rcases lt_trichotomy acc.2 y.2 with h | h | h
            · exact absurd h h1
            · exact absurd h h2
            · exact h
          rw [if_neg h1, if_neg h2, if_pos h3]
          exact ih acc

theorem lastMaxGoQ_mem_or (xs : List (ℕ × ℚ)) :
    ∀ acc, lastMaxGoQ acc xs = acc ∨ lastMaxGoQ acc xs ∈ xs := by
  induction xs with
  | nil => intro acc; exact Or.inl rfl
  | cons y ys ih =>
      intro acc
      simp only [lastMaxGoQ]
      by_cases h : y.2 < acc.2
      · rw [if_pos h]
        rcases ih acc with h1 | h1
        · exact Or.inl h1
        · exact Or.inr (List.mem_cons_of_mem y h1)
      · rw [if_neg h]
        rcases ih y with h1 | h1
        · exact Or.inr (by rw [h1]; exact List.mem_cons_self y ys)
        · exact Or.inr (List.mem_cons_of_mem y h1)

theorem lastMaxGoQ_ge_acc (xs : List (ℕ × ℚ)) :
    ∀ acc, acc.2 ≤ (lastMaxGoQ acc xs).2 := by
  induction xs with
  | nil => intro acc; exact le_refl _
  | cons y ys ih =>
      intro acc
      simp only [lastMaxGoQ]
      by_cases h : y.2 < acc.2
      · rw [if_pos h]
        exact ih acc
      · rw [if_neg h]
        exact le_trans (le_of_not_lt h) (ih y)

theorem lastMaxGoQ_ub (xs : List (ℕ × ℚ)) :
    ∀ acc, ∀ p ∈ xs, p.2 ≤ (lastMaxGoQ acc xs).2 := by
  induction xs with
  | nil => intro acc p hp; cases hp
  | cons y ys ih =>
      intro acc p hp
      simp only [lastMaxGoQ]
      rcases List.mem_cons.mp hp with rfl | hp
      · by_cases h : p.2 < acc.2
        · rw [if_pos h]
          exact le_trans (le_of_lt h) (lastMaxGoQ_ge_acc ys acc)
        · rw [if_neg h]
          exact lastMaxGoQ_ge_acc ys p
      · by_cases h : y.2 < acc.2
        · rw [if_pos h]
          exact ih acc p hp
        · rw [if_neg h]
          exact ih y p hp

/-- Rational mirror of the whole max_by: the last pair of the enumerated
list attaining the maximal value. -/
def lastMaxQ (l : List ℚ) : ℕ × ℚ :=
  match l.enum with
  | [] => (0, 0)
  | x :: xs => lastMaxGoQ x xs

theorem maxByLast_map_fin (l : List ℚ) (h : l ≠ []) :
    maxByLast ((l.map EFloat.fin).enum)
      = some ((lastMaxQ l).1, EFloat.fin (lastMaxQ l).2) := by
  cases l with
  | nil => exact absurd rfl h
  | cons a t =>
      rw [List.enum_map]
      rw [List.enum_cons]
      simp only [List.map_cons, maxByLast, lastMaxQ, List.enum_cons]
      have hmap : (t.enumFrom 1).map (Prod.map id EFloat.fin)
          = (t.enumFrom 1).map fun p => (p.1, EFloat.fin p.2) := by
        apply List.map_congr_left
        intro p _
        rfl
      rw [hmap]
      exact maxByLastGo_map_fin (t.enumFrom 1) (0, a)

theorem lastMaxQ_spec (l : List ℚ) (h : l ≠ []) :
    lastMaxQ l ∈ l.enum ∧ ∀ p ∈ l.enum, p.2 ≤ (lastMaxQ l).2 := by
  cases l with
  | nil => exact absurd rfl h
  | cons a t =>
      constructor
      · simp only [lastMaxQ, List.enum_cons]
        rcases lastMaxGoQ_mem_or (t.enumFrom 1) (0, a) with h1 | h1
        · rw [h1]
          exact List.mem_cons_self _ _
        · exact List.mem_cons_of_mem _ h1
      · intro p hp
        simp only [lastMaxQ, List.enum_cons]
        rcases List.mem_cons.mp (by simpa [List.enum_cons] using hp)
            with rfl | hp2
        · exact lastMaxGoQ_ge_acc (t.enumFrom 1) (0, a)
        · exact lastMaxGoQ_ub (t.enumFrom 1) (0, a) p hp2

/-- C6 counterexample: (i) with 20 prices whose newest-first window is
90, 100×9, 120, 100×9 — peak 120 at position 10, oldest price 100,
newest 90 — the pump is exactly (120−100)/100·100 = 20 and the dump is
(120−90)/120·100 = 25, so the claim's conditions pump ≥ 20 and
dump ≥ 15 hold with the peak inside the band, yet check_pump_dump does
not fire: the code uses strict comparisons.  (ii) where the check does
fire (spec scenario S4: 100s, peak 140, then 110), the emitted
anomaly_type is UnusualActivity, not PumpDump: the AnomalyType enum of
monitor-core has no PumpDump variant. -/
theorem c6_counterexample :
    ({ MarketAnalyzer.new "s" "e" with
        price_history := ((List.replicate 9 (100 : ℚ)) ++ [120]
          ++ List.replicate 9 100 ++ [90]).map EFloat.fin,
        volume_history := List.replicate 20 (EFloat.fin 1)
      } : MarketAnalyzer).checkPumpDump = some none ∧
    (20 : ℚ) ≤ (120 - 100) / 100 * 100 ∧
    (15 : ℚ) ≤ (120 - 90) / 120 * 100 ∧
    (Option.map (Option.map fun d => (d.anomaly_type, d.severity))
        ({ MarketAnalyzer.new "s" "e" with
            price_history := ((List.replicate 9 (100 : ℚ)) ++ [140]
              ++ List.replicate 9 100 ++ [110]).map EFloat.fin,
            volume_history := List.replicate 20 (EFloat.fin 1)
          } : MarketAnalyzer).checkPumpDump)
      = some (some (AnomalyType.UnusualActivity,
          AnomalySeverity.Critical)) := by
  refine ⟨?_, by norm_num, by norm_num, ?_⟩ <;>
    norm_num [MarketAnalyzer.checkPumpDump, MarketAnalyzer.new,
      maxByLast, maxByLastGo, EFloat.pcmp, EFloat.blt,
      EFloat.sub_def, EFloat.sub, EFloat.div_def, EFloat.div,
      EFloat.mul_def, EFloat.mul, List.replicate, List.enum,
      List.enumFrom, decide_eq_true_eq, Bool.and_eq_true]

/-- C6 amended: given at least 20 recorded prices (positive rationals)
and at least 20 recorded volumes, the pump-and-dump check over the
newest-first window q of the last 20 prices selects the pair (i, v)
where v is the maximal price and i its position in q (ties resolved to
the larger i, that is to the oldest tied sample), and fires iff
5 < i < 15 AND the pump (v − q[19])/q[19]·100 strictly exceeds 20 AND
the dump (v − q[0])/v·100 strictly exceeds 15, where q[19] is the oldest
and q[0] the newest price; the emitted anomaly has severity Critical and
anomaly_type UnusualActivity, there being no PumpDump variant in the
AnomalyType enum. -/
theorem c6_pump_dump_characterisation (l : List ℚ) (a : MarketAnalyzer)
    (hph : a.price_history = l.map EFloat.fin)
    (hvlen : ¬ a.volume_history.length < 20)
    (hlen : 20 ≤ l.length) (hpos : ∀ x ∈ l, 0 < x) :
    ∃ (i : ℕ) (v bfre aft : ℚ) (r : Option (AnomalyDetection FQ)),
      (l.reverse.take 20)[i]? = some v ∧
      (∀ (j : ℕ) (x : ℚ), (l.reverse.take 20)[j]? = some x → x ≤ v) ∧
      (l.reverse.take 20)[19]? = some bfre ∧
      (l.reverse.take 20)[0]? = some aft ∧
      a.checkPumpDump = some r ∧
      (r.isSome ↔ (5 < i ∧ i < 15 ∧ 20 < (v - bfre) / bfre * 100 ∧
        15 < (v - aft) / v * 100)) ∧
      (∀ det, r = some det →
        det.anomaly_type = AnomalyType.UnusualActivity ∧
        det.severity = AnomalySeverity.Critical) := by
  set q := l.reverse.take 20 with hqdef
  have hqlen : q.length = 20 := by
    rw [hqdef, List.length_take, List.length_reverse]
    omega
  have hqsub : ∀ x ∈ q, x ∈ l := by
    intro x hx
    exact List.mem_reverse.mp (List.take_subset 20 l.reverse hx)
  have hqne : q ≠ [] := by
    intro h
    rw [h] at hqlen
    simp at hqlen
  obtain ⟨hmem, hub⟩ := lastMaxQ_spec q hqne
  have hiv : q[(lastMaxQ q).1]? = some (lastMaxQ q).2 :=
    List.mem_enum_iff_getElem?.mp hmem
  have hub2 : ∀ (j : ℕ) (x : ℚ), q[j]? = some x → x ≤ (lastMaxQ q).2 := by
    intro j x hx
    exact hub (j, x) (List.mem_enum_iff_getElem?.mpr hx)
  have hb : q[19]? = some (q[19]) :=
    List.getElem?_eq_getElem (by omega)
  have haf : q[0]? = some (q[0]) :=
    List.getElem?_eq_getElem (by omega)
  have hv_pos : 0 < (lastMaxQ q).2 := by
    obtain ⟨h1, h2⟩ := List.getElem?_eq_some_iff.mp hiv
    exact h2 ▸ hpos _ (hqsub _ (List.getElem_mem h1))
  have hb_pos : 0 < q[19] :=
    hpos _ (hqsub _ (List.getElem_mem (by omega)))
  have hcond : ¬ ((l.map EFloat.fin).length < 20 ∨
      a.volume_history.length < 20) := by
    push_neg
    constructor
    · rw [List.length_map]
      omega
    · omega
  have hprices : (l.map EFloat.fin).reverse.take 20
      = q.map EFloat.fin := by
    rw [hqdef, ← List.map_reverse, ← List.map_take]
  have heval : a.checkPumpDump
      = if 5 < (lastMaxQ q).1 ∧ (lastMaxQ q).1 < 15 then
          (if ((EFloat.fin (20 : ℚ)).blt (EFloat.fin
                (((lastMaxQ q).2 - q[19]) / q[19]
                  * 100))
              && (EFloat.fin (15 : ℚ)).blt (EFloat.fin
                (((lastMaxQ q).2 - q[0]) / (lastMaxQ q).2
                  * 100)))
            then some (some
              { timestamp := 0, symbol := a.symbol, exchange := a.exchange
                anomaly_type := AnomalyType.UnusualActivity
                severity := AnomalySeverity.Critical
                metrics :=
                  { current_value := EFloat.fin (q[0])
                    expected_value := EFloat.fin (q[19])
                    deviation := EFloat.fin
                      (q[0] - q[19])
                    z_score := none
                    percentage_change := some (EFloat.fin
                      (((lastMaxQ q).2 - q[19])
                        / q[19] * 100))
                    historical_avg := none, historical_std := none } })
            else some none)
        else some none := by
    rw [MarketAnalyzer.checkPumpDump, hph, if_neg hcond]
    dsimp only
    rw [hprices, maxByLast_map_fin q hqne]
    dsimp only
    rw [List.getElem?_map, List.getElem?_map, hb, haf]
    simp only [Option.map_some']
    simp only [EFloat.sub_def, EFloat.sub]
    rw [EFloat.div_fin _ _ (ne_of_gt hb_pos),
      EFloat.div_fin _ _ (ne_of_gt hv_pos)]
    rfl
  by_cases hband : 5 < (lastMaxQ q).1 ∧ (lastMaxQ q).1 < 15
  · by_cases h20 : (20 : ℚ) < ((lastMaxQ q).2 - q[19])
        / q[19] * 100
    · by_cases h15 : (15 : ℚ) < ((lastMaxQ q).2 - q[0])
          / (lastMaxQ q).2 * 100
      · have hbool : ((EFloat.fin (20 : ℚ)).blt (EFloat.fin
              (((lastMaxQ q).2 - q[19]) / q[19]
                * 100))
            && (EFloat.fin (15 : ℚ)).blt (EFloat.fin
              (((lastMaxQ q).2 - q[0]) / (lastMaxQ q).2
                * 100))) = true := by
          simp [EFloat.blt_fin, h20, h15]
        refine ⟨(lastMaxQ q).1, (lastMaxQ q).2, q[19],
          q[0], _, hiv, hub2, hb, haf,
          by rw [heval, if_pos hband, if_pos hbool], ?_, ?_⟩
        · simp [hband.1, hband.2, h20, h15]
        · intro det hdet
          simp only [Option.some.injEq] at hdet
          rw [← hdet]
          exact ⟨rfl, rfl⟩
      · have hbool : ((EFloat.fin (20 : ℚ)).blt (EFloat.fin
              (((lastMaxQ q).2 - q[19]) / q[19]
                * 100))
            && (EFloat.fin (15 : ℚ)).blt (EFloat.fin
              (((lastMaxQ q).2 - q[0]) / (lastMaxQ q).2
                * 100))) = false := by
          simp [EFloat.blt_fin, h15]
        refine ⟨(lastMaxQ q).1, (lastMaxQ q).2, q[19],
          q[0], none, hiv, hub2, hb, haf,
          by rw [heval, if_pos hband,
            if_neg (by rw [hbool]; exact Bool.false_ne_true)], ?_, ?_⟩
        · simp [h15]
        · intro det hdet
          cases hdet
    · have hbool : ((EFloat.fin (20 : ℚ)).blt (EFloat.fin
            (((lastMaxQ q).2 - q[19]) / q[19]
              * 100))
          && (EFloat.fin (15 : ℚ)).blt (EFloat.fin
            (((lastMaxQ q).2 - q[0]) / (lastMaxQ q).2
              * 100))) = false := by
        simp [EFloat.blt_fin, h20]
      refine ⟨(lastMaxQ q).1, (lastMaxQ q).2, q[19],
        q[0], none, hiv, hub2, hb, haf,
        by rw [heval, if_pos hband,
          if_neg (by rw [hbool]; exact Bool.false_ne_true)], ?_, ?_⟩
      · simp [h20]
      · intro det hdet
        cases hdet
  · refine ⟨(lastMaxQ q).1, (lastMaxQ q).2, q[19],
      q[0], none, hiv, hub2, hb, haf,
      by rw [heval, if_neg hband], ?_, ?_⟩
    · simp only [Option.isSome_none, Bool.false_eq_true, false_iff]
      intro hcontra
      exact hband ⟨hcontra.1, hcontra.2.1⟩
    · intro det hdet
      cases hdet

/-- Price history of the spec's pump-and-dump scenario S4: nine prices
at 100, a peak of 140, nine more at 100, then 110. -/
def c6WitnessPrices : List ℚ :=
  List.replicate 9 100 ++ [140] ++ List.replicate 9 100 ++ [110]

/-- Closed witness for c6_pump_dump_characterisation at the S4 prices. -/
theorem c6_pump_dump_characterisation_witness :
    ∃ (i : ℕ) (v bfre aft : ℚ) (r : Option (AnomalyDetection FQ)),
      (c6WitnessPrices.reverse.take 20)[i]? = some v ∧
      (∀ (j : ℕ) (x : ℚ),
        (c6WitnessPrices.reverse.take 20)[j]? = some x → x ≤ v) ∧
      (c6WitnessPrices.reverse.take 20)[19]? = some bfre ∧
      (c6WitnessPrices.reverse.take 20)[0]? = some aft ∧
      ({ MarketAnalyzer.new "s" "e" with
          price_history := c6WitnessPrices.map EFloat.fin,
          volume_history := List.replicate 20 (EFloat.fin 1)
        } : MarketAnalyzer).checkPumpDump = some r ∧
      (r.isSome ↔ (5 < i ∧ i < 15 ∧ 20 < (v - bfre) / bfre * 100 ∧
        15 < (v - aft) / v * 100)) ∧
      (∀ det, r = some det →
        det.anomaly_type = AnomalyType.UnusualActivity ∧
        det.severity = AnomalySeverity.Critical) :=
  c6_pump_dump_characterisation c6WitnessPrices _ rfl
    (by simp)
    (by simp [c6WitnessPrices])
    (by
      intro x hx
      simp only [c6WitnessPrices, List.mem_append, List.mem_replicate,
        List.mem_cons, List.not_mem_nil, or_false] at hx
      rcases hx with ((⟨_, rfl⟩ | rfl) | ⟨_, rfl⟩) | rfl <;> norm_num)

/-- C7 counterexample: pushing nan into a fresh window of capacity 5 does
change the window state, contradicting the claim that non-finite samples
are skipped: the deque gains the nan sample and the running sum becomes
nan. -/
theorem c7_counterexample :
    ((TimeSeriesWindow.new (EFloat ℚ) 5).push ⟨0, EFloat.nan⟩).data
        ≠ (TimeSeriesWindow.new (EFloat ℚ) 5).data ∧
    ((TimeSeriesWindow.new (EFloat ℚ) 5).push ⟨0, EFloat.nan⟩).sum
        ≠ (TimeSeriesWindow.new (EFloat ℚ) 5).sum := by
  decide

/-- C7 amended: TimeSeriesWindow::push has no finiteness check at all; a
nan sample is appended to the deque like any other sample (evicting the
oldest sample exactly when the deque is full) and the running sums become
nan. -/
theorem c7_nonfinite_push_updates (w : TimeSeriesWindow (EFloat ℚ))
    (t : ℚ) :
    ((w.push ⟨t, EFloat.nan⟩).data
      = (if w.max_size ≤ w.data.length then w.data.tail else w.data)
        ++ [⟨t, EFloat.nan⟩]) ∧
    (w.push ⟨t, EFloat.nan⟩).sum = EFloat.nan ∧
    (w.push ⟨t, EFloat.nan⟩).sum_squared = EFloat.nan := by
  by_cases h : w.max_size ≤ w.data.length
  · cases hd : w.data with
    | nil =>
        have h2 : w.max_size
            ≤ ([] : List (TimeSeriesData (EFloat ℚ))).length := hd ▸ h
        have h3 : w.max_size = 0 := by simpa using h2
        refine ⟨?_, ?_, ?_⟩ <;>
          simp [TimeSeriesWindow.push, hd, h3, EFloat.add_nan,
            EFloat.mul_nan]
    | cons a l =>
        have h2 : w.max_size ≤ (a :: l).length := hd ▸ h
        have h3 : w.max_size ≤ l.length + 1 := by simpa using h2
        refine ⟨?_, ?_, ?_⟩ <;>
          simp [TimeSeriesWindow.push, hd, h3, EFloat.add_nan,
            EFloat.mul_nan]
  · refine ⟨?_, ?_, ?_⟩ <;>
      simp [TimeSeriesWindow.push, h, EFloat.add_nan, EFloat.mul_nan]

/-- Scalar type of the monitor-example embedding: real numbers extended
with nan and infinities, so that both IEEE square roots and the nan
panic of sort_by are representable. -/
abbrev ER := EFloat ℝ

/-- f64::sqrt per IEEE-754: nan below zero, nan of nan, inf of inf. -/
noncomputable def EFloat.sqrtR : ER → ER
  | EFloat.fin x => if x < 0 then EFloat.nan else EFloat.fin (Real.sqrt x)
  | EFloat.nan => EFloat.nan
  | EFloat.inf => EFloat.inf
  | EFloat.ninf => EFloat.nan

/-- One insertion step of the sort model: compares with the Rust
comparator a.partial_cmp(b).unwrap(), whose panic on a nan pair is
modelled as none. -/
noncomputable def insertOpt (x : ER) : List ER → Option (List ER)
  | [] => some [x]
  | y :: ys =>
      match EFloat.pcmp x y with
      | none => none
      | some Ordering.gt =>
          match insertOpt x ys with
          | none => none
          | some r => some (y :: r)
      | some _ => some (x :: y :: ys)

/-- Rust slice::sort_by with comparator a.partial_cmp(b).unwrap(),
modelled as an insertion sort with the same comparator: with a nan-free
input the comparator is a total order and the sort succeeds; a compared
nan pair is the unwrap panic, modelled as none. -/
noncomputable def sortOpt : List ER → Option (List ER)
  | [] => some []
  | x :: xs =>
      match sortOpt xs with
      | none => none
      | some r => insertOpt x r

/-- Rust struct Statistics, monitor_demo_improved.rs lines 72-79. -/
structure Statistics where
  mean : ER
  std_dev : ER
  min : ER
  max : ER
  percentile_95 : ER

/-- Statistics::calculate, monitor_demo_improved.rs lines 81-108.  The
outer Option models the sort_by panic on a nan comparison; the inner
Option is the method's own None on empty input.  The p95 index
(len·0.95) as usize is the exact floor 19·len/20. -/
noncomputable def Statistics.calculate (values : List ER) :
    Option (Option Statistics) :=
  if values = [] then some none
  else
    let mean := sumE values / EFloat.fin ((values.length : ℝ))
    let variance :=
      sumE (values.map fun x => (x - mean) * (x - mean))
        / EFloat.fin ((values.length : ℝ))
    let std_dev := variance.sqrtR
    match sortOpt values with
    | none => none
    | some sorted =>
        match sorted[0]?, sorted[sorted.length - 1]?,
            sorted[19 * sorted.length / 20]? with
        | some mn, some mx, some p95 =>
            some (some
              { mean := mean, std_dev := std_dev, min := mn, max := mx,
                percentile_95 := p95 })
        | _, _, _ => none

/-- Rust struct MonitorConfig of the improved monitor example,
monitor_demo_improved.rs lines 28-44. -/
structure MonitorConfig where
  price_change_threshold : ER
  volume_anomaly_multiplier_base : ER
  volume_anomaly_multiplier_max : ER
  window_size : ℕ
  report_interval_secs : ℕ
  min_samples : ℕ
  dynamic_threshold : Bool

/-- Default for the improved MonitorConfig, lines 46-58. -/
noncomputable def MonitorConfig.default : MonitorConfig :=
  { price_change_threshold := EFloat.fin 3
    volume_anomaly_multiplier_base := EFloat.fin 5
    volume_anomaly_multiplier_max := EFloat.fin 20
    window_size := 200
    report_interval_secs := 10
    min_samples := 20
    dynamic_threshold := true }

/-- Rust struct MarketDataPoint, lines 61-69. -/
structure MarketDataPoint where
  timestamp : ℚ
  price : ER
  volume : ER
  exchange : String
  symbol : String
  market_type : String

/-- Shape of the alert string built by add_data_point: a price alert, a
volume alert, or the price alert with the volume alert appended; the
concrete format! text is presentational and not modelled. -/
inductive AlertMsg where
  | priceAlert
  | volumeAlert
  | bothAlerts
deriving DecidableEq, Repr

/-- Rust struct SymbolMonitor, monitor_demo_improved.rs lines 111-124.
Instant values are rational milliseconds supplied by the caller. -/
structure SymbolMonitor where
  symbol : String
  data_points : List MarketDataPoint
  last_price : ER
  total_volume : ER
  trade_count : ℕ
  price_changes : List ER
  volume_history : List ER
  anomalies_detected : ℕ
  false_positives : ℕ
  last_alert_time : Option ℚ
  dynamic_volume_threshold : ER

/-- SymbolMonitor::new, lines 126-141. -/
noncomputable def SymbolMonitor.new (symbol : String)
    (config : MonitorConfig) : SymbolMonitor :=
  { symbol := symbol, data_points := [], last_price := EFloat.fin 0,
    total_volume := EFloat.fin 0, trade_count := 0, price_changes := [],
    volume_history := [], anomalies_detected := 0, false_positives := 0,
    last_alert_time := none,
    dynamic_volume_threshold := config.volume_anomaly_multiplier_base }

/-- SymbolMonitor::add_data_point, monitor_demo_improved.rs lines
143-238, with Instant::now() passed in as now (milliseconds).  The
statement order follows the source: trade counters and the data and
volume windows are updated first; then the min_samples early return,
then the 2-second debounce early return (both set last_price only on
top of the updates already made); then the price block and the volume
block, and finally last_price is set and the alert returned.  The outer
Option models a panic inside Statistics::calculate. -/
noncomputable def SymbolMonitor.addDataPoint (m0 : SymbolMonitor)
    (point : MarketDataPoint) (config : MonitorConfig) (now : ℚ) :
    Option (SymbolMonitor × Option AlertMsg) :=
  let m1 : SymbolMonitor :=
    { m0 with trade_count := m0.trade_count + 1,
              total_volume := m0.total_volume + point.volume }
  let m2 : SymbolMonitor :=
    { m1 with data_points :=
        (if config.window_size ≤ m1.data_points.length
          then m1.data_points.tail else m1.data_points) ++ [point] }
  let m : SymbolMonitor :=
    { m2 with volume_history :=
        (if config.window_size ≤ m2.volume_history.length
          then m2.volume_history.tail else m2.volume_history)
          ++ [point.volume] }
  if m.data_points.length < config.min_samples then
    some ({ m with last_price := point.price }, none)
  else if (match m.last_alert_time with
      | some last_time => decide (now - last_time < 2000)
      | none => false) then
    some ({ m with last_price := point.price }, none)
  else
    let pcRes : Option (SymbolMonitor × Option AlertMsg) :=
      if (EFloat.fin 0).blt m.last_price then
        let price_change_pct :=
          ((point.price - m.last_price) / m.last_price
            * EFloat.fin 100).eAbs
        let mp : SymbolMonitor :=
          { m with price_changes :=
              (if config.window_size ≤ m.price_changes.length
                then m.price_changes.tail else m.price_changes)
                ++ [price_change_pct] }
        match Statistics.calculate mp.price_changes with
        | none => none
        | some none => some (mp, none)
        | some (some price_stats) =>
            let dynamic_price_threshold :=
              if config.dynamic_threshold then
                EFloat.fmax
                  (price_stats.mean + EFloat.fin 2 * price_stats.std_dev)
                  config.price_change_threshold
              else config.price_change_threshold
            if (dynamic_price_threshold.blt price_change_pct
                && price_stats.percentile_95.blt price_change_pct) then
              some ({ mp with
                  anomalies_detected := mp.anomalies_detected + 1,
                  last_alert_time := some now },
                some AlertMsg.priceAlert)
            else some (mp, none)
      else some (m, none)
    match pcRes with
    | none => none
    | some (m3, alert1) =>
        match Statistics.calculate m3.volume_history with
        | none => none
        | some none => some ({ m3 with last_price := point.price }, alert1)
        | some (some volume_stats) =>
            let iqr_multiplier := EFloat.fin (3 / 2)
              + EFloat.fmin (volume_stats.std_dev / volume_stats.mean)
                (EFloat.fin 2)
            let clamped := EFloat.fmin
              (config.volume_anomaly_multiplier_base * iqr_multiplier)
              config.volume_anomaly_multiplier_max
            let m4 : SymbolMonitor :=
              if config.dynamic_threshold then
                { m3 with dynamic_volume_threshold := clamped }
              else m3
            let volume_threshold :=
              volume_stats.mean * m4.dynamic_volume_threshold
            if (volume_threshold.blt point.volume
                && (volume_stats.percentile_95
                  * EFloat.fin (3 / 2)).blt point.volume) then
              let alert2 : Option AlertMsg :=
                match alert1 with
                | none => some AlertMsg.volumeAlert
                | some AlertMsg.priceAlert => some AlertMsg.bothAlerts
                | some x => some x
              some ({ m4 with
                  last_price := point.price,
                  anomalies_detected := m4.anomalies_detected + 1,
                  last_alert_time := some now }, alert2)
            else some ({ m4 with last_price := point.price }, alert1)

/-- C8 amended, part of the correction of the debounce claim: whenever a
data point arrives less than 2 seconds after last_alert_time,
add_data_point returns None, but the new state is the old one with
trade_count incremented, the volume added to total_volume, the data and
volume windows advanced, and last_price replaced — only the remaining
fields (symbol, price_changes, anomalies_detected, false_positives,
last_alert_time, dynamic_volume_threshold) are unchanged.  Moreover any
call that does emit an alert with a previous last_alert_time has seen at
least 2000 ms elapse, so consecutive alerts of one monitor are at least
2000 ms apart in monitor-observed time. -/
theorem c8_debounce_frame_and_spacing :
    (∀ (m : SymbolMonitor) (p : MarketDataPoint) (cfg : MonitorConfig)
      (now t : ℚ), m.last_alert_time = some t → now - t < 2000 →
      m.addDataPoint p cfg now = some
        ({ m with
            trade_count := m.trade_count + 1,
            total_volume := m.total_volume + p.volume,
            data_points :=
              (if cfg.window_size ≤ m.data_points.length
                then m.data_points.tail else m.data_points) ++ [p],
            volume_history :=
              (if cfg.window_size ≤ m.volume_history.length
                then m.volume_history.tail else m.volume_history)
                ++ [p.volume],
            last_price := p.price }, none)) ∧
    (∀ (m : SymbolMonitor) (p : MarketDataPoint) (cfg : MonitorConfig)
      (now t : ℚ) (m' : SymbolMonitor) (msg : AlertMsg),
      m.last_alert_time = some t →
      m.addDataPoint p cfg now = some (m', some msg) →
      2000 ≤ now - t) := by
  constructor
  · intro m p cfg now t halert hrecent
    rw [SymbolMonitor.addDataPoint]
    dsimp only
    by_cases hms : (if cfg.window_size ≤ m.data_points.length
        then m.data_points.tail else m.data_points).length + 1
        < cfg.min_samples
    · rw [if_pos (by simpa using hms)]
    · rw [if_neg (by simpa using hms)]
      rw [if_pos (by
        simp only [halert]
        simpa using hrecent)]
  · intro m p cfg now t m' msg halert heq
    by_cases hd : now - t < 2000
    · exfalso
      rw [SymbolMonitor.addDataPoint] at heq
      dsimp only at heq
      by_cases hms : (if cfg.window_size ≤ m.data_points.length
          then m.data_points.tail else m.data_points).length + 1
          < cfg.min_samples
      · rw [if_pos (by simpa using hms)] at heq
        simp at heq
      · rw [if_neg (by simpa using hms)] at heq
        rw [if_pos (by
          simp only [halert]
          simpa using hd)] at heq
        simp at heq
    · linarith [not_lt.mp hd]

/-- Monitor state of the C8 counterexample: a fresh monitor that has
already alerted at time 1000 ms. -/
noncomputable def c8Monitor : SymbolMonitor :=
  { symbol := "BTC", data_points := [], last_price := EFloat.fin 0,
    total_volume := EFloat.fin 0, trade_count := 0, price_changes := [],
    volume_history := [], anomalies_detected := 0, false_positives := 0,
    last_alert_time := some 1000,
    dynamic_volume_threshold := EFloat.fin 5 }

/-- Config of the C8 counterexample: min_samples 1, window 10, dynamic
thresholds off. -/
noncomputable def c8Config : MonitorConfig :=
  { price_change_threshold := EFloat.fin 3
    volume_anomaly_multiplier_base := EFloat.fin 5
    volume_anomaly_multiplier_max := EFloat.fin 20
    window_size := 10, report_interval_secs := 10, min_samples := 1
    dynamic_threshold := false }

/-- Data point of the C8 counterexample. -/
noncomputable def c8Point : MarketDataPoint :=
  { timestamp := 0, price := EFloat.fin 5, volume := EFloat.fin 2,
    exchange := "E", symbol := "BTC", market_type := "Spot" }

/-- Monitor state after the debounced call of the C8 counterexample. -/
noncomputable def c8Result : SymbolMonitor :=
  { symbol := "BTC", data_points := [c8Point], last_price := EFloat.fin 5,
    total_volume := EFloat.fin 2, trade_count := 1, price_changes := [],
    volume_history := [EFloat.fin 2], anomalies_detected := 0,
    false_positives := 0, last_alert_time := some 1000,
    dynamic_volume_threshold := EFloat.fin 5 }

/-- C8 counterexample: a data point arriving 500 ms after the last alert
is debounced (None is returned), but the monitor state does not change
in last_price only: trade_count, total_volume, data_points and
volume_history all change as well. -/
theorem c8_counterexample :
    c8Monitor.addDataPoint c8Point c8Config 1500
        = some (c8Result, none) ∧
    c8Result.trade_count = 1 ∧ c8Monitor.trade_count = 0 ∧
    c8Result.data_points = [c8Point] ∧ c8Monitor.data_points = [] ∧
    c8Result.volume_history = [EFloat.fin 2] ∧
    c8Monitor.volume_history = [] := by
  refine ⟨?_, rfl, rfl, rfl, rfl, rfl, rfl⟩
  norm_num [SymbolMonitor.addDataPoint, c8Monitor, c8Config, c8Point,
    c8Result, EFloat.fin_add]

/-- Monitor state for the alerting half of the C8 witness: four large
negative volumes recorded, last alert long past. -/
noncomputable def c8AlertMonitor : SymbolMonitor :=
  { symbol := "BTC", data_points := [], last_price := EFloat.fin 0,
    total_volume := EFloat.fin 0, trade_count := 0, price_changes := [],
    volume_history := [EFloat.fin (-100), EFloat.fin (-100),
      EFloat.fin (-100), EFloat.fin (-100)],
    anomalies_detected := 0, false_positives := 0,
    last_alert_time := some 0,
    dynamic_volume_threshold := EFloat.fin 5 }

/-- Data point whose volume fires the volume check of the C8 witness. -/
noncomputable def c8AlertPoint : MarketDataPoint :=
  { timestamp := 0, price := EFloat.fin 7, volume := EFloat.fin (-1),
    exchange := "E", symbol := "BTC", market_type := "Spot" }

/-- Monitor state after the alerting call of the C8 witness. -/
noncomputable def c8AlertResult : SymbolMonitor :=
  { symbol := "BTC", data_points := [c8AlertPoint],
    last_price := EFloat.fin 7, total_volume := EFloat.fin (-1),
    trade_count := 1, price_changes := [],
    volume_history := [EFloat.fin (-100), EFloat.fin (-100),
      EFloat.fin (-100), EFloat.fin (-100), EFloat.fin (-1)],
    anomalies_detected := 1, false_positives := 0,
    last_alert_time := some 5000,
    dynamic_volume_threshold := EFloat.fin 5 }

theorem c8_alert_run :
    c8AlertMonitor.addDataPoint c8AlertPoint c8Config 5000
      = some (c8AlertResult, some AlertMsg.volumeAlert) := by
  norm_num [SymbolMonitor.addDataPoint, c8AlertMonitor, c8Config,
    c8AlertPoint, c8AlertResult, Statistics.calculate, sortOpt,
    insertOpt, EFloat.pcmp, sumE, EFloat.fin_add, EFloat.blt,
    EFloat.div_def, EFloat.div, EFloat.mul_def, EFloat.mul,
    EFloat.sub_def, EFloat.sub, decide_eq_true_eq, Bool.and_eq_true,
    List.cons_ne_nil, ne_eq]

/-- Closed witness for c8_debounce_frame_and_spacing: the frame part at
the debounced call of the counterexample state, and the spacing part at
an alerting call 5000 ms after an alert at time 0. -/
theorem c8_debounce_frame_and_spacing_witness :
    (c8Monitor.addDataPoint c8Point c8Config 1500 = some
      ({ c8Monitor with
          trade_count := c8Monitor.trade_count + 1,
          total_volume := c8Monitor.total_volume + c8Point.volume,
          data_points :=
            (if c8Config.window_size ≤ c8Monitor.data_points.length
              then c8Monitor.data_points.tail
              else c8Monitor.data_points) ++ [c8Point],
          volume_history :=
            (if c8Config.window_size ≤ c8Monitor.volume_history.length
              then c8Monitor.volume_history.tail
              else c8Monitor.volume_history) ++ [c8Point.volume],
          last_price := c8Point.price }, none)) ∧
    (2000 : ℚ) ≤ 5000 - 0 :=
  ⟨c8_debounce_frame_and_spacing.1 c8Monitor c8Point c8Config 1500 1000
      rfl (by norm_num),
    c8_debounce_frame_and_spacing.2 c8AlertMonitor c8AlertPoint c8Config
      5000 0 c8AlertResult AlertMsg.volumeAlert rfl c8_alert_run⟩

/-- Rust struct CompositeAnomalyDetector, detector.rs lines 197-199.  Its
detectors field is a Vec of boxed AnomalyDetector trait objects; the only
code constructing composites is the manager (detector.rs lines 253-268 and
282-297), which always adds exactly one VolumeAnomalyDetector followed by
one PriceAnomalyDetector, so the embedding fixes that pair as the state. -/
structure CompositeAnomalyDetector where
  volume : VolumeAnomalyDetector
  price : PriceAnomalyDetector

/-- CompositeAnomalyDetector::detect_all, detector.rs lines 212-217:
iter_mut over the detectors in order, collecting the Some results of
detect and keeping each detector's mutated state. -/
noncomputable def CompositeAnomalyDetector.detectAll
    (c : CompositeAnomalyDetector) (data : TimeSeriesData ℝ) :
    CompositeAnomalyDetector × List (AnomalyDetection ℝ) :=
  let rv := c.volume.detect data
  let rp := c.price.detect data
  (⟨rv.1, rp.1⟩, rv.2.toList ++ rp.2.toList)

/-- Rust struct AnomalyDetectorManager, detector.rs lines 226-230.  The
Arc of RwLock of HashMap becomes an association list keyed by the
"exchange:symbol" string; lock acquisition has no observable effect in a
single-threaded run. -/
structure AnomalyDetectorManager where
  detectors : List (String × CompositeAnomalyDetector)
  volume_config : VolumeAnomalyConfig
  price_config : PriceAnomalyConfig

/-- AnomalyDetectorManager::new, detector.rs lines 232-242. -/
def AnomalyDetectorManager.new (volume_config : VolumeAnomalyConfig)
    (price_config : PriceAnomalyConfig) : AnomalyDetectorManager :=
  { detectors := [], volume_config := volume_config,
    price_config := price_config }

/-- HashMap lookup over the association-list model of the registry. -/
def getEntry (k : String) :
    List (String × CompositeAnomalyDetector) →
      Option CompositeAnomalyDetector
  | [] => none
  | (k', v) :: rest => if k' = k then some v else getEntry k rest

/-- HashMap insert-or-overwrite over the association-list model. -/
def setEntry (k : String) (v : CompositeAnomalyDetector) :
    List (String × CompositeAnomalyDetector) →
      List (String × CompositeAnomalyDetector)
  | [] => [(k, v)]
  | (k', v') :: rest =>
      if k' = k then (k, v) :: rest else (k', v') :: setEntry k v rest

/-- The composite built by the identical or_insert_with closures of
get_or_create_detector and process_data (detector.rs lines 253-268 and
282-297): a fresh volume detector and a fresh price detector from the
manager's configs. -/
def AnomalyDetectorManager.freshComposite (mgr : AnomalyDetectorManager)
    (symbol exchange : String) : CompositeAnomalyDetector :=
  { volume := VolumeAnomalyDetector.new mgr.volume_config symbol exchange,
    price := PriceAnomalyDetector.new mgr.price_config symbol exchange }

/-- AnomalyDetectorManager::get_or_create_detector, detector.rs lines
244-270: look the key up, inserting a fresh composite when absent, and
return a CLONE of the stored entry (the .clone() at line 269); mutations
of the returned composite are never written back to the registry. -/
def AnomalyDetectorManager.getOrCreateDetector
    (mgr : AnomalyDetectorManager) (symbol exchange : String) :
    AnomalyDetectorManager × CompositeAnomalyDetector :=
  let key := exchange ++ ":" ++ symbol
  match getEntry key mgr.detectors with
  | some c => (mgr, c)
  | none =>
      let c := mgr.freshComposite symbol exchange
      ({ mgr with detectors := mgr.detectors ++ [(key, c)] }, c)

/-- AnomalyDetectorManager::process_data, detector.rs lines 272-301: look
the key up, inserting a fresh composite when absent, run detect_all on
the stored entry in place, and keep the mutated composite in the
registry. -/
noncomputable def AnomalyDetectorManager.processData
    (mgr : AnomalyDetectorManager) (symbol exchange : String)
    (data : TimeSeriesData ℝ) :
    AnomalyDetectorManager × List (AnomalyDetection ℝ) :=
  let key := exchange ++ ":" ++ symbol
  let c :=
    match getEntry key mgr.detectors with
    | some c => c
    | none => mgr.freshComposite symbol exchange
  let r := c.detectAll data
  ({ mgr with detectors := setEntry key r.1 mgr.detectors }, r.2)

theorem getEntry_append_none (k : String) (c : CompositeAnomalyDetector)
    (l : List (String × CompositeAnomalyDetector))
    (h : getEntry k l = none) : getEntry k (l ++ [(k, c)]) = some c := by
  induction l with
  | nil => simp [getEntry]
  | cons p rest ih =>
      obtain ⟨k', v⟩ := p
      by_cases hk : k' = k
      · simp [getEntry, hk] at h
      · simp only [getEntry, List.cons_append, if_neg hk] at h ⊢
        exact ih h

theorem setEntry_of_none (k : String) (v : CompositeAnomalyDetector)
    (l : List (String × CompositeAnomalyDetector))
    (h : getEntry k l = none) : setEntry k v l = l ++ [(k, v)] := by
  induction l with
  | nil => simp [setEntry]
  | cons p rest ih =>
      obtain ⟨k', v'⟩ := p
      by_cases hk : k' = k
      · simp [getEntry, hk] at h
      · simp only [getEntry, if_neg hk] at h
        simp only [setEntry, if_neg hk, List.cons_append]
        exact congrArg _ (ih h)

theorem setEntry_append_none (k : String)
    (v c : CompositeAnomalyDetector)
    (l : List (String × CompositeAnomalyDetector))
    (h : getEntry k l = none) :
    setEntry k v (l ++ [(k, c)]) = l ++ [(k, v)] := by
  induction l with
  | nil => simp [setEntry]
  | cons p rest ih =>
      obtain ⟨k', v'⟩ := p
      by_cases hk : k' = k
      · simp [getEntry, hk] at h
      · simp only [getEntry, if_neg hk] at h
        simp only [setEntry, List.cons_append, if_neg hk]
        exact congrArg _ (ih h)

/-- C9 amended: the registry hands out clones, not the registry-owned
state.  The composite get_or_create_detector returns is exactly the entry
the registry stores at the key at the moment of the call, and
process_data equals: get or create the entry, run detect_all on it, and
write the mutated composite back under the key.  Detections performed on
the value get_or_create_detector returns are therefore NOT reflected in
the registry (the clone at detector.rs line 269 is never written back),
as c9_counterexample exhibits. -/
theorem c9_registry_clone_semantics (mgr : AnomalyDetectorManager)
    (symbol exchange : String) (data : TimeSeriesData ℝ) :
    getEntry (exchange ++ ":" ++ symbol)
        (mgr.getOrCreateDetector symbol exchange).1.detectors
      = some (mgr.getOrCreateDetector symbol exchange).2 ∧
    mgr.processData symbol exchange data =
      ({ (mgr.getOrCreateDetector symbol exchange).1 with
          detectors :=
            setEntry (exchange ++ ":" ++ symbol)
              (((mgr.getOrCreateDetector symbol exchange).2.detectAll
                  data).1)
              (mgr.getOrCreateDetector symbol exchange).1.detectors },
        ((mgr.getOrCreateDetector symbol exchange).2.detectAll data).2) := by
  cases hget : getEntry (exchange ++ ":" ++ symbol) mgr.detectors with
  | some c =>
      refine ⟨?_, ?_⟩
      · simp [AnomalyDetectorManager.getOrCreateDetector, hget]
      · simp [AnomalyDetectorManager.processData,
          AnomalyDetectorManager.getOrCreateDetector, hget]
  | none =>
      refine ⟨?_, ?_⟩
      · simp [AnomalyDetectorManager.getOrCreateDetector, hget,
          getEntry_append_none _ _ _ hget]
      · simp [AnomalyDetectorManager.processData,
          AnomalyDetectorManager.getOrCreateDetector, hget,
          setEntry_of_none _ _ _ hget,
          setEntry_append_none _ _ _ _ hget]

/-- Volume config of the C9 counterexample: two samples suffice and both
thresholds are zero, so detect fires on every sample once the window
holds two. -/
def c9VolumeConfig : VolumeAnomalyConfig :=
  { z_score_threshold := 0, min_percentage_change := 0,
    window_size := 10, min_samples := 2 }

/-- Price config of the C9 counterexample, thresholds zero likewise. -/
def c9PriceConfig : PriceAnomalyConfig :=
  { percentage_threshold := 0, z_score_threshold := 0,
    window_size := 10, min_samples := 2 }

/-- Fresh manager of the C9 counterexample. -/
def c9Manager : AnomalyDetectorManager :=
  AnomalyDetectorManager.new c9VolumeConfig c9PriceConfig

/-- Data point of the C9 counterexample, fed twice. -/
def c9Data : TimeSeriesData ℝ := { timestamp := 0, value := 1 }

/-- C9 counterexample: feed the same data point twice with min_samples 2
and zero thresholds.  Detecting through the composite that
get_or_create_detector returned records the sample only in the clone
(conjunct 1); the registry entry still has an empty window (conjunct 2);
a subsequent process_data for the same key therefore sees only its own,
first sample and returns no anomalies (conjunct 3) — although the
registry-owned path, process_data twice, fires both detectors at the
second sample (conjunct 4).  The two paths perform the same two detect
passes, so they are not equivalent and the state get_or_create_detector
hands out is not the registry-owned state. -/
theorem c9_counterexample :
    ((c9Manager.getOrCreateDetector "BTC" "E").2.detectAll
        c9Data).1.volume.window.len = 1 ∧
    (getEntry "E:BTC"
        (c9Manager.getOrCreateDetector "BTC" "E").1.detectors).map
        (fun c => c.volume.window.len) = some 0 ∧
    ((c9Manager.getOrCreateDetector "BTC" "E").1.processData "BTC" "E"
        c9Data).2 = [] ∧
    (((c9Manager.processData "BTC" "E" c9Data).1).processData "BTC" "E"
        c9Data).2.length = 2 := by
  refine ⟨?_, ?_, ?_, ?_⟩
  · norm_num [c9Manager, AnomalyDetectorManager.new,
      AnomalyDetectorManager.getOrCreateDetector,
      AnomalyDetectorManager.freshComposite, getEntry,
      CompositeAnomalyDetector.detectAll, VolumeAnomalyDetector.new,
      VolumeAnomalyDetector.detect, TimeSeriesWindow.new,
      TimeSeriesWindow.push, TimeSeriesWindow.len, c9VolumeConfig,
      c9Data]
  · have hkey : ("E" ++ ":" ++ "BTC" : String) = "E:BTC" := rfl
    norm_num [c9Manager, AnomalyDetectorManager.new,
      AnomalyDetectorManager.getOrCreateDetector,
      AnomalyDetectorManager.freshComposite, getEntry, hkey,
      VolumeAnomalyDetector.new, TimeSeriesWindow.new,
      TimeSeriesWindow.len, c9VolumeConfig]
  · norm_num [c9Manager, AnomalyDetectorManager.new,
      AnomalyDetectorManager.getOrCreateDetector,
      AnomalyDetectorManager.processData,
      AnomalyDetectorManager.freshComposite, getEntry, setEntry,
      CompositeAnomalyDetector.detectAll, VolumeAnomalyDetector.new,
      VolumeAnomalyDetector.detect, PriceAnomalyDetector.new,
      PriceAnomalyDetector.detect, TimeSeriesWindow.new,
      TimeSeriesWindow.push, TimeSeriesWindow.len, c9VolumeConfig,
      c9PriceConfig, c9Data]
  · norm_num [c9Manager, AnomalyDetectorManager.new,
      AnomalyDetectorManager.processData,
      AnomalyDetectorManager.freshComposite, getEntry, setEntry,
      CompositeAnomalyDetector.detectAll, VolumeAnomalyDetector.new,
      VolumeAnomalyDetector.detect, PriceAnomalyDetector.new,
      PriceAnomalyDetector.detect, TimeSeriesWindow.new,
      TimeSeriesWindow.push, TimeSeriesWindow.len,
      TimeSeriesWindow.mean, TimeSeriesWindow.std_dev,
      TimeSeriesWindow.zScore, c9VolumeConfig, c9PriceConfig, c9Data]

theorem EFloat.pcmp_isSome {α : Type} [LinearOrderedField α]
    (a b : EFloat α) (ha : ¬ a.isNan) (hb : ¬ b.isNan) :
    ∃ o, EFloat.pcmp a b = some o := by
  cases a <;> cases b <;>
    first
      | exact absurd trivial ha
      | exact absurd trivial hb
      | exact ⟨_, rfl⟩

theorem maxByLastGo_isSome (xs : List (ℕ × FQ)) (acc : ℕ × FQ)
    (hacc : ¬ acc.2.isNan) (hxs : ∀ p ∈ xs, ¬ p.2.isNan) :
    (maxByLastGo acc xs).isSome := by
  induction xs generalizing acc with
  | nil => simp [maxByLastGo]
  | cons y ys ih =>
      have hy : ¬ y.2.isNan := hxs y (List.mem_cons_self y ys)
      have hys : ∀ p ∈ ys, ¬ p.2.isNan :=
        fun p hp => hxs p (List.mem_cons_of_mem _ hp)
      obtain ⟨o, ho⟩ := EFloat.pcmp_isSome acc.2 y.2 hacc hy
      unfold maxByLastGo
      rw [ho]
      cases o with
      | lt => exact ih y hy hys
      | eq => exact ih y hy hys
      | gt => exact ih acc hacc hys

theorem maxByLast_isSome (l : List FQ) (hne : l ≠ [])
    (h : ∀ x ∈ l, ¬ x.isNan) : (maxByLast l.enum).isSome := by
  have hmem : ∀ p ∈ l.enum, ¬ (Prod.snd p).isNan := by
    intro p hp
    exact h p.2 (List.getElem?_mem (List.mem_enum_iff_getElem?.mp hp))
  cases he : l.enum with
  | nil => exact absurd (List.enum_eq_nil.mp he) hne
  | cons p ps =>
      have hp : ¬ p.2.isNan := hmem p (he ▸ List.mem_cons_self p ps)
      have hps : ∀ q ∈ ps, ¬ q.2.isNan :=
        fun q hq => hmem q (he ▸ List.mem_cons_of_mem p hq)
      exact maxByLastGo_isSome ps p hp hps

theorem checkPriceManipulation_isSome (a : MarketAnalyzer) :
    a.checkPriceManipulation.isSome := by
  by_cases hl : a.price_history.length < 10
  · simp [MarketAnalyzer.checkPriceManipulation, hl]
  · have hlen : (a.price_history.reverse.take 10).length = 10 := by
      simp only [List.length_take, List.length_reverse]
      omega
    obtain ⟨r0, hr0⟩ : ∃ v, (a.price_history.reverse.take 10)[0]? = some v :=
      ⟨_, List.getElem?_eq_getElem (by omega)⟩
    obtain ⟨r9, hr9⟩ : ∃ v, (a.price_history.reverse.take 10)[9]? = some v :=
      ⟨_, List.getElem?_eq_getElem (by omega)⟩
    simp only [MarketAnalyzer.checkPriceManipulation, if_neg hl, hr0, hr9]
    split <;> rfl

theorem checkFlashCrash_isSome (a : MarketAnalyzer) :
    a.checkFlashCrash.isSome := by
  by_cases hl : a.price_history.length < 5
  · simp [MarketAnalyzer.checkFlashCrash, hl]
  · have hlen : (a.price_history.reverse.take 5).length = 5 := by
      simp only [List.length_take, List.length_reverse]
      omega
    obtain ⟨r0, hr0⟩ : ∃ v, (a.price_history.reverse.take 5)[0]? = some v :=
      ⟨_, List.getElem?_eq_getElem (by omega)⟩
    simp only [MarketAnalyzer.checkFlashCrash, if_neg hl, hr0]
    split <;> rfl

theorem checkPumpDump_isSome (a : MarketAnalyzer)
    (h : ∀ x ∈ a.price_history, ¬ x.isNan) :
    a.checkPumpDump.isSome := by
  by_cases hl : a.price_history.length < 20 ∨ a.volume_history.length < 20
  · simp [MarketAnalyzer.checkPumpDump, hl]
  · have hp : 20 ≤ a.price_history.length :=
      not_lt.mp fun hc => hl (Or.inl hc)
    have hlen : (a.price_history.reverse.take 20).length = 20 := by
      simp only [List.length_take, List.length_reverse]
      omega
    have hne : a.price_history.reverse.take 20 ≠ [] := by
      intro hc
      rw [hc] at hlen
      simp at hlen
    have hfin : ∀ x ∈ a.price_history.reverse.take 20, ¬ x.isNan :=
      fun x hx => h x (List.mem_reverse.mp (List.mem_of_mem_take hx))
    obtain ⟨pk, hpk⟩ :=
      Option.isSome_iff_exists.mp (maxByLast_isSome _ hne hfin)
    obtain ⟨p19, hp19⟩ :
        ∃ v, (a.price_history.reverse.take 20)[19]? = some v :=
      ⟨_, List.getElem?_eq_getElem (by omega)⟩
    obtain ⟨p0, hp0⟩ :
        ∃ v, (a.price_history.reverse.take 20)[0]? = some v :=
      ⟨_, List.getElem?_eq_getElem (by omega)⟩
    simp only [MarketAnalyzer.checkPumpDump, if_neg hl, hpk]
    by_cases hband : 5 < pk.1 ∧ pk.1 < 15
    · simp only [if_pos hband, hp19, hp0]
      split <;> rfl
    · simp only [if_neg hband]
      rfl

theorem analyzeMarketData_match_isSome (a2 : MarketAnalyzer)
    (r1 : Option (AnomalyDetection FQ))
    (h : ∀ x ∈ a2.price_history, ¬ x.isNan) :
    (match a2.checkPriceManipulation, a2.checkFlashCrash,
        a2.checkPumpDump with
      | some r2, some r3, some r4 =>
          some (a2, [r1, r2, r3, r4].filterMap id)
      | _, _, _ =>
          (none : Option (MarketAnalyzer × List (AnomalyDetection FQ)))).isSome
      := by
  obtain ⟨r2, h2⟩ :=
    Option.isSome_iff_exists.mp (checkPriceManipulation_isSome a2)
  obtain ⟨r3, h3⟩ :=
    Option.isSome_iff_exists.mp (checkFlashCrash_isSome a2)
  obtain ⟨r4, h4⟩ :=
    Option.isSome_iff_exists.mp (checkPumpDump_isSome a2 h)
  rw [h2, h3, h4]
  rfl

theorem updateHistory_price_not_nan (a : MarketAnalyzer)
    (price volume : FQ) (hh : ∀ x ∈ a.price_history, ¬ x.isNan)
    (hp : ¬ price.isNan) :
    ∀ x ∈ (a.updateHistory price volume).price_history, ¬ x.isNan := by
  intro x hx
  simp only [MarketAnalyzer.updateHistory] at hx
  have hx' : x ∈ a.price_history ++ [price] := by
    split at hx
    · exact List.tail_subset _ hx
    · exact hx
  rcases List.mem_append.mp hx' with h' | h'
  · exact hh x h'
  · simp only [List.mem_singleton] at h'
    subst h'
    exact hp

theorem analyzeMarketData_isSome (a : MarketAnalyzer)
    (price volume : FQ) (hh : ∀ x ∈ a.price_history, ¬ x.isNan)
    (hp : ¬ price.isNan) :
    (a.analyzeMarketData price volume).isSome := by
  exact analyzeMarketData_match_isSome _ _
    (updateHistory_price_not_nan a price volume hh hp)

theorem insertOpt_total (x : ER) (l : List ER) (hx : ¬ x.isNan)
    (hl : ∀ y ∈ l, ¬ y.isNan) :
    ∃ r, insertOpt x l = some r ∧ r.length = l.length + 1 ∧
      ∀ y ∈ r, y ∈ x :: l := by
  induction l with
  | nil => exact ⟨[x], rfl, rfl, by simp⟩
  | cons y ys ih =>
      have hy : ¬ y.isNan := hl y (List.mem_cons_self y ys)
      have hys : ∀ z ∈ ys, ¬ z.isNan :=
        fun z hz => hl z (List.mem_cons_of_mem _ hz)
      obtain ⟨o, ho⟩ := EFloat.pcmp_isSome x y hx hy
      cases o with
      | gt =>
          obtain ⟨r, hr, hrl, hrs⟩ := ih hys
          refine ⟨y :: r, ?_, by simp [hrl], ?_⟩
          · unfold insertOpt
            rw [ho, hr]
          · intro z hz
            rcases List.mem_cons.mp hz with hz | hz
            · subst hz
              exact List.mem_cons_of_mem _ (List.mem_cons_self _ _)
            · rcases List.mem_cons.mp (hrs z hz) with h' | h'
              · subst h'
                exact List.mem_cons_self _ _
              · exact List.mem_cons_of_mem _ (List.mem_cons_of_mem _ h')
      | lt =>
          refine ⟨x :: y :: ys, ?_, by simp, fun z hz => hz⟩
          unfold insertOpt
          rw [ho]
      | eq =>
          refine ⟨x :: y :: ys, ?_, by simp, fun z hz => hz⟩
          unfold insertOpt
          rw [ho]

theorem sortOpt_total (l : List ER) (hl : ∀ y ∈ l, ¬ y.isNan) :
    ∃ r, sortOpt l = some r ∧ r.length = l.length ∧ ∀ y ∈ r, y ∈ l := by
  induction l with
  | nil => exact ⟨[], rfl, rfl, by simp⟩
  | cons x xs ih =>
      have hx : ¬ x.isNan := hl x (List.mem_cons_self x xs)
      have hxs : ∀ z ∈ xs, ¬ z.isNan :=
        fun z hz => hl z (List.mem_cons_of_mem _ hz)
      obtain ⟨r, hr, hrl, hrs⟩ := ih hxs
      have hrn : ∀ y ∈ r, ¬ y.isNan := fun y hy => hxs y (hrs y hy)
      obtain ⟨r2, hr2, hr2l, hr2s⟩ := insertOpt_total x r hx hrn
      refine ⟨r2, ?_, by simp [hr2l, hrl], ?_⟩
      · unfold sortOpt
        rw [hr]
        exact hr2
      · intro z hz
        rcases List.mem_cons.mp (hr2s z hz) with h' | h'
        · subst h'
          exact List.mem_cons_self _ _
        · exact List.mem_cons_of_mem _ (hrs z h')

theorem calculate_isSome (values : List ER)
    (h : ∀ x ∈ values, ¬ x.isNan) :
    (Statistics.calculate values).isSome := by
  by_cases hne : values = []
  · simp [Statistics.calculate, hne]
  · obtain ⟨r, hr, hrl, _⟩ := sortOpt_total values h
    have hpos : 0 < r.length := by
      rw [hrl]
      exact List.length_pos.mpr hne
    obtain ⟨mn, hmn⟩ : ∃ v, r[0]? = some v :=
      ⟨_, List.getElem?_eq_getElem (by omega)⟩
    obtain ⟨mx, hmx⟩ : ∃ v, r[r.length - 1]? = some v :=
      ⟨_, List.getElem?_eq_getElem (by omega)⟩
    obtain ⟨p95, hp95⟩ : ∃ v, r[19 * r.length / 20]? = some v :=
      ⟨_, List.getElem?_eq_getElem (Nat.div_lt_of_lt_mul (by omega))⟩
    simp only [Statistics.calculate, if_neg hne, hr, hmn, hmx, hp95]
    rfl

/-- Analyzer state of the C10 necessity run: nineteen finite prices and
volumes, so that the nan price pushed next brings both histories to the
pump-dump length of 20 and the argmax fold compares a nan. -/
def c10NanAnalyzer : MarketAnalyzer :=
  { symbol := "BTC", exchange := "E", metrics := MetricsCalculator.new,
    price_history := List.replicate 19 (EFloat.fin 1),
    volume_history := List.replicate 19 (EFloat.fin 1),
    max_history_size := 1000 }

theorem c10_nan_run :
    c10NanAnalyzer.analyzeMarketData EFloat.nan (EFloat.fin 1) = none := by
  norm_num [c10NanAnalyzer, MarketAnalyzer.analyzeMarketData,
    MarketAnalyzer.updateHistory, MetricsCalculator.new,
    MetricsCalculator.addData, MarketAnalyzer.checkUnusualVolume,
    MarketAnalyzer.checkPriceManipulation, MarketAnalyzer.checkFlashCrash,
    MarketAnalyzer.checkPumpDump, List.replicate, maxByLast, maxByLastGo,
    List.enum, List.enumFrom, EFloat.pcmp, EFloat.blt, EFloat.eAbs,
    EFloat.fmax, EFloat.fmin, EFloat.sub_def, EFloat.sub, EFloat.div_def,
    EFloat.div, EFloat.mul_def, EFloat.mul, EFloat.add_def, EFloat.add,
    sumE, f64MaxQ]

theorem c10_nan_sort :
    Statistics.calculate [EFloat.fin (1 : ℝ), EFloat.nan] = none := by
  norm_num [Statistics.calculate, sortOpt, insertOpt, EFloat.pcmp,
    List.cons_ne_nil, ne_eq]

/-- C10: with every recorded price non-nan and a non-nan new price,
analyze_market_data never panics — every partial_cmp unwrap (the argmax
of check_pump_dump) and every fixed indexing (recent_prices[0] and [9],
prices[19] and [0]) is reached only when defined — and
Statistics::calculate never panics on a nan-free value list; the
precondition is necessary: a nan price drives the pump-dump argmax
comparator into its unwrap panic, and a nan value does the same to the
sort comparator of Statistics::calculate. -/
theorem c10_totality_no_nan :
    (∀ (a : MarketAnalyzer) (price volume : FQ),
        (∀ x ∈ a.price_history, ¬ x.isNan) → ¬ price.isNan →
        (a.analyzeMarketData price volume).isSome) ∧
    (∀ values : List ER, (∀ x ∈ values, ¬ x.isNan) →
        (Statistics.calculate values).isSome) ∧
    c10NanAnalyzer.analyzeMarketData EFloat.nan (EFloat.fin 1) = none ∧
    Statistics.calculate [EFloat.fin (1 : ℝ), EFloat.nan] = none :=
  ⟨analyzeMarketData_isSome, calculate_isSome, c10_nan_run, c10_nan_sort⟩

/-- Closed witness for c10_totality_no_nan: a fresh analyzer accepts one
finite sample, and a two-element finite value list has statistics. -/
theorem c10_totality_no_nan_witness :
    ((MarketAnalyzer.new "BTC" "E").analyzeMarketData (EFloat.fin 1)
        (EFloat.fin 1)).isSome ∧
    (Statistics.calculate [EFloat.fin (1 : ℝ), EFloat.fin 2]).isSome :=
  ⟨c10_totality_no_nan.1 (MarketAnalyzer.new "BTC" "E") _ _
      (by simp [MarketAnalyzer.new])
      (by simp [EFloat.isNan]),
    c10_totality_no_nan.2.1 [EFloat.fin 1, EFloat.fin 2]
      (by
        intro x hx
        simp only [List.mem_cons, List.mem_singleton,
          List.not_mem_nil, or_false] at hx
        rcases hx with rfl | rfl <;> simp [EFloat.isNan])⟩

end CryptoMonitor
